import Mathlib

/-!
# Bacalhau command line and storage drivers: a verification development

A shallow embedding of

* `cmd/bacalhau/apply.go`    (the `apply` command),
* `cmd/bacalhau/describe.go` (the `describe` command),
* `cmd/bacalhau/serve.go`    (the `serve` command),
* `pkg/storage/url/urldownload/storage.go` (the URL download storage driver),
* `pkg/verifier/ipfs/verifier.go` (the ipfs verifier).

Conventions.

* Go package level variables become a record of globals that is passed in and
  returned.
* A Go `error` is its message; `nil` is `none`.
* Calls into packages that are not part of the embedded files (the Go standard
  library, cobra, resty, yaml, and the other bacalhau packages) are fields of an
  environment record, so every statement holds for each behaviour of those
  collaborators.
* The observable actions of a run are collected, in program order, in a trace.
-/

set_option autoImplicit false

namespace Bacalhau

/-! ## Shared data model -/

/-- Modelled from the spec: the storage source tag of `pkg/storage` (its declaration is not
among the embedded files).  The embedded code names the two constants `StorageSourceIPFS` and
`StorageSourceURLDownload`; `Other` stands for every further value of the enumeration. -/
inductive StorageSourceType where
  | IPFS
  | URLDownload
  | Other (code : Nat)
  deriving DecidableEq, Repr

/-- The record `storage.StorageSpec`, with the fields the embedded code reads or writes. -/
structure StorageSpec where
  Engine : StorageSourceType
  EngineName : String
  Name : String
  Cid : String
  URL : String
  Path : String
  deriving DecidableEq, Repr

/-- The zero value of `storage.StorageSourceType` (an integer enumeration starting at zero). -/
def StorageSourceType.zero : StorageSourceType := .Other 0

/-- The record `executor.JobSpecDocker`. -/
structure JobSpecDocker where
  Image : String
  Entrypoint : List String
  Env : List String
  deriving DecidableEq, Repr

/-- The record `capacitymanager.ResourceUsageConfig`. -/
structure ResourceUsageConfig where
  CPU : String
  Memory : String
  GPU : String
  deriving DecidableEq, Repr

/-- The record `executor.JobSpec`, with the fields the embedded code reads.  The engine and
verifier kinds are Go integer enumerations. -/
structure JobSpec where
  Engine : Int
  Verifier : Int
  EngineName : String
  VerifierName : String
  Docker : JobSpecDocker
  Resources : ResourceUsageConfig
  Inputs : List StorageSpec
  Outputs : List StorageSpec
  deriving DecidableEq, Repr

/-- The record `executor.JobDeal`. -/
structure JobDeal where
  Concurrency : Int
  AssignedNodes : List String
  deriving DecidableEq, Repr

/-- The record `executor.Job`; `CreatedAt` is a time stamp. -/
structure Job where
  ID : String
  ClientID : String
  RequesterNodeID : String
  Spec : JobSpec
  Deal : JobDeal
  CreatedAt : Int
  deriving DecidableEq, Repr

/-- How a Go function body ends: it returns an error value (`none` is `nil`), or it stops with a
run time panic (a nil pointer dereference). -/
inductive Outcome where
  | ret (err : Option String)
  | panicked
  deriving DecidableEq, Repr

/-! ## `cmd/bacalhau/apply.go` -/

namespace Apply

/-- The package level variables `apply` reads and writes.  `jobspec` is a pointer, `none` is
`nil`.  `doNotTrack` is declared elsewhere in the package. -/
structure Globals where
  jobspec : Option JobSpec
  filename : String
  jobConcurrency : Int
  jobInputUrls : List String
  jobInputVolumes : List String
  jobOutputVolumes : List String
  jobWorkingDir : String
  jobLabels : List String
  doNotTrack : Bool
  deriving DecidableEq, Repr

/-- The values of the globals when the process starts with the given `-f`, `-c` and `-l`
flags (the flag defaults are `""`, `1` and the empty list). -/
def Globals.atStart (file : String) (concurrency : Int) (labels : List String) : Globals where
  jobspec := none
  filename := file
  jobConcurrency := concurrency
  jobInputUrls := []
  jobInputVolumes := []
  jobOutputVolumes := []
  jobWorkingDir := ""
  jobLabels := labels
  doNotTrack := false

/-- The argument list of the call `job.ConstructDockerJob(...)`, in the order of the call. -/
structure ConstructArgs where
  engineType : Int
  verifierType : Int
  cpu : String
  memory : String
  gpu : String
  inputUrls : List String
  inputVolumes : List String
  outputVolumes : List String
  env : List String
  entrypoint : List String
  image : String
  concurrency : Int
  labels : List String
  workingDir : String
  doNotTrack : Bool
  deriving DecidableEq, Repr

/-- The collaborators of `apply`. -/
structure Env where
  /-- The function `filepath.Ext`. -/
  Ext : String → String
  /-- The function `os.Open`; a handle is a number. -/
  Open : String → Except String Nat
  /-- The function `io.ReadAll`. -/
  ReadAll : Nat → Except String (List Nat)
  /-- The call `json.Unmarshal(bytes, &jobspec)`: the new value of the pointer, and the error. -/
  JSONUnmarshal : List Nat → Option JobSpec → Option JobSpec × Option String
  /-- The call `yaml.Unmarshal(bytes, &jobspec)`. -/
  YAMLUnmarshal : List Nat → Option JobSpec → Option JobSpec × Option String
  /-- The function `storage.ParseStorageSourceType`. -/
  ParseStorageSourceType : String → Except String StorageSourceType
  /-- The function `executor.ParseEngineType`. -/
  ParseEngineType : String → Except String Int
  /-- The function `verifier.ParseVerifierType`. -/
  ParseVerifierType : String → Except String Int
  /-- The function `system.ValidateWorkingDir`. -/
  ValidateWorkingDir : String → Option String
  /-- The function `job.ConstructDockerJob`. -/
  ConstructDockerJob : ConstructArgs → Except String (JobSpec × JobDeal)
  /-- The call `getAPIClient().Submit(ctx, spec, deal, nil)`. -/
  Submit : JobSpec → JobDeal → Except String Job

/-- The errors `apply` returns: one made by a collaborator, or one of the four `fmt.Errorf`
values of the input validation, with the value that is formatted into the message. -/
inductive Error where
  | collaborator (msg : String)
  | emptyVolumeMountPoint (input : StorageSpec)
  | emptyIpfsVolumeCid (input : StorageSpec)
  | emptyUrlVolumeUrl (input : StorageSpec)
  | unknownStorageSourceType (engineName : String)
  deriving DecidableEq, Repr

/-- What a run of `apply` does, in program order. -/
inductive Effect where
  | JSONUnmarshal (bytes : List Nat)
  | YAMLUnmarshal (bytes : List Nat)
  | Printf (text : String)
  | ConstructDockerJob (args : ConstructArgs)
  | Submit (spec : JobSpec) (deal : JobDeal)
  deriving DecidableEq, Repr

/-- How a run of `apply` ends. -/
inductive Result where
  | ret (err : Option Error)
  | panicked
  deriving DecidableEq, Repr

/-- A finished run: how it ended, the globals it leaves, what it did. -/
structure Run where
  result : Result
  globals : Globals
  trace : List Effect
  deriving DecidableEq, Repr

/-- The loop over `jobspec.Inputs` (lines 87 to 111), started with the current values of
`jobInputUrls` and `jobInputVolumes`.  It gives the two lists as the loop leaves them, and the
error it returns with, if any. -/
def validateInputs (parse : String → Except String StorageSourceType) :
    List StorageSpec → List String → List String → (List String × List String) × Option Error
  | [], urls, volumes => ((urls, volumes), none)
  | jobspecInput :: rest, urls, volumes =>
    match parse jobspecInput.EngineName with
    | .error err => ((urls, volumes), some (.collaborator err))
    | .ok storageSpecEngineType =>
      if jobspecInput.Path = "" then
        ((urls, volumes), some (.emptyVolumeMountPoint jobspecInput))
      else if storageSpecEngineType = StorageSourceType.IPFS then
        if jobspecInput.Cid = "" then
          ((urls, volumes), some (.emptyIpfsVolumeCid jobspecInput))
        else
          validateInputs parse rest urls
            (volumes ++ [jobspecInput.Cid ++ ":" ++ jobspecInput.Path])
      else if storageSpecEngineType = StorageSourceType.URLDownload then
        if jobspecInput.URL = "" then
          ((urls, volumes), some (.emptyUrlVolumeUrl jobspecInput))
        else
          validateInputs parse rest
            (urls ++ [jobspecInput.URL ++ ":" ++ jobspecInput.Path]) volumes
      else
        ((urls, volumes), some (.unknownStorageSourceType jobspecInput.EngineName))

/-- The loop over `jobspec.Outputs` (lines 115 to 118), started with the current value of
`jobOutputVolumes`. -/
def collectOutputs : List StorageSpec → List String → List String
  | [], volumes => volumes
  | jobspecsOutputs :: rest, volumes =>
    collectOutputs rest (volumes ++ [jobspecsOutputs.Name ++ ":" ++ jobspecsOutputs.Path])

/-- The argument list of the call of `job.ConstructDockerJob` at lines 141 to 157. -/
def constructArgs (engineType verifierType : Int) (spec : JobSpec) (g : Globals) :
    ConstructArgs where
  engineType := engineType
  verifierType := verifierType
  cpu := spec.Resources.CPU
  memory := spec.Resources.Memory
  gpu := spec.Resources.GPU
  inputUrls := g.jobInputUrls
  inputVolumes := g.jobInputVolumes
  outputVolumes := g.jobOutputVolumes
  env := spec.Docker.Env
  entrypoint := spec.Docker.Entrypoint
  image := spec.Docker.Image
  concurrency := g.jobConcurrency
  labels := g.jobLabels
  workingDir := g.jobWorkingDir
  doNotTrack := g.doNotTrack

/-- Lines 134 to 139: the check of the working directory. -/
def checkWorkingDir (env : Env) (g : Globals) : Option String :=
  if g.jobWorkingDir.length > 0 then env.ValidateWorkingDir g.jobWorkingDir else none

/-- Lines 122 to 168: the engine and verifier names are parsed, the working directory is
checked, the job is constructed and submitted, and its id is printed.  `g` holds the globals
after line 120. -/
def constructAndSubmit (env : Env) (spec : JobSpec) (g : Globals) (done : List Effect) : Run :=
  match env.ParseEngineType spec.EngineName with
  | .error err =>
    ⟨.ret (some (.collaborator err)), g,
      done ++ [.Printf ("Error parsing engine type: " ++ err)]⟩
  | .ok engineType =>
    match env.ParseVerifierType spec.VerifierName with
    | .error err =>
      ⟨.ret (some (.collaborator err)), g,
        done ++ [.Printf ("Error parsing verifier type: " ++ err)]⟩
    | .ok verifierType =>
      match checkWorkingDir env g with
      | some err => ⟨.ret (some (.collaborator err)), g, done⟩
      | none =>
        match env.ConstructDockerJob (constructArgs engineType verifierType spec g) with
        | .error err =>
          ⟨.ret (some (.collaborator err)), g,
            done ++ [.ConstructDockerJob (constructArgs engineType verifierType spec g)]⟩
        | .ok (jobSpec, deal) =>
          match env.Submit jobSpec deal with
          | .error err =>
            ⟨.ret (some (.collaborator err)), g,
              done ++ [.ConstructDockerJob (constructArgs engineType verifierType spec g),
                .Submit jobSpec deal]⟩
          | .ok job =>
            ⟨.ret none, g,
              done ++ [.ConstructDockerJob (constructArgs engineType verifierType spec g),
                .Submit jobSpec deal, .Printf (job.ID ++ "\n")]⟩

/-- Lines 86 to 112: the validation of the inputs.  It gives `jobInputUrls` and
`jobInputVolumes` as it leaves them, and the error it returns with, if any. -/
def checkInputs (env : Env) (spec : JobSpec) (g : Globals) :
    (List String × List String) × Option Error :=
  if spec.Inputs.length ≠ 0 then
    validateInputs env.ParseStorageSourceType spec.Inputs g.jobInputUrls g.jobInputVolumes
  else ((g.jobInputUrls, g.jobInputVolumes), none)

/-- Lines 114 to 120: the new value of `jobOutputVolumes`, from the current one. -/
def gatherOutputs (spec : JobSpec) (jobOutputVolumes : List String) : List String :=
  (if spec.Outputs.length ≠ 0 then collectOutputs spec.Outputs jobOutputVolumes
   else jobOutputVolumes) ++ ["outputs:/outputs"]

/-- Lines 82 to 168, entered with the bytes decoded: `g` holds the globals after line 80.
Reading `jobspec.Docker.Image` through a nil pointer panics. -/
def validateAndSubmit (env : Env) (g : Globals) (done : List Effect) : Run :=
  match g.jobspec with
  | none => ⟨.panicked, g, done⟩
  | some spec =>
    let checked := checkInputs env spec g
    let g1 := { g with jobInputUrls := checked.1.1, jobInputVolumes := checked.1.2 }
    match checked.2 with
    | some err => ⟨.ret (some err), g1, done⟩
    | none =>
      constructAndSubmit env spec
        { g1 with jobOutputVolumes := gatherOutputs spec g1.jobOutputVolumes } done

/-- Lines 68 to 73: the JSON branch.  Either the function returns here (the left case holds
the finished run), or it goes on with the globals and the trace given. -/
def decodeJSON (env : Env) (fileextension : String) (byteResult : List Nat) (g : Globals) :
    Except Run (Globals × List Effect) :=
  if fileextension = ".json" then
    let decoded := env.JSONUnmarshal byteResult g.jobspec
    match decoded.2 with
    | some err =>
      .error ⟨.ret (some (.collaborator err)), { g with jobspec := decoded.1 },
        [.JSONUnmarshal byteResult]⟩
    | none => .ok ({ g with jobspec := decoded.1 }, [.JSONUnmarshal byteResult])
  else .ok (g, [])

/-- Lines 75 to 80: the YAML branch. -/
def decodeYAML (env : Env) (fileextension : String) (byteResult : List Nat) (g : Globals)
    (done : List Effect) : Except Run (Globals × List Effect) :=
  if fileextension = ".yaml" ∨ fileextension = ".yml" then
    let decoded := env.YAMLUnmarshal byteResult g.jobspec
    match decoded.2 with
    | some err =>
      .error ⟨.ret (some (.collaborator err)), { g with jobspec := decoded.1 },
        done ++ [.YAMLUnmarshal byteResult]⟩
    | none => .ok ({ g with jobspec := decoded.1 }, done ++ [.YAMLUnmarshal byteResult])
  else .ok (g, done)

/-- Lines 52 to 80: the file is read and decoded into `jobspec`. -/
def decodeJobFile (env : Env) (g : Globals) : Except Run (Globals × List Effect) :=
  let fileextension := env.Ext g.filename
  match env.Open g.filename with
  | .error err => .error ⟨.ret (some (.collaborator err)), g, []⟩
  | .ok fileContent =>
    match env.ReadAll fileContent with
    | .error err => .error ⟨.ret (some (.collaborator err)), g, []⟩
    | .ok byteResult =>
      match decodeJSON env fileextension byteResult g with
      | .error run => .error run
      | .ok (g1, done) => decodeYAML env fileextension byteResult g1 done

/-- An effect of the decoding stage: a call of one of the two decoders. -/
def Effect.isDecode : Effect → Bool
  | .JSONUnmarshal _ => true
  | .YAMLUnmarshal _ => true
  | _ => false

/-- The function `applyCmd.RunE`. -/
def RunE (env : Env) (g : Globals) : Run :=
  match decodeJobFile env g with
  | .error run => run
  | .ok (g1, done) => validateAndSubmit env g1 done

/-- The input specification invariant for one input of a job file: the mount path is not
empty, and the engine name parses to IPFS with a cid that is not empty, or to URL download
with a URL that is not empty. -/
def InputOK (parse : String → Except String StorageSourceType) (input : StorageSpec) : Prop :=
  input.Path ≠ "" ∧
    ((parse input.EngineName = .ok .IPFS ∧ input.Cid ≠ "") ∨
     (parse input.EngineName = .ok .URLDownload ∧ input.URL ≠ ""))

/-- A job file with the given inputs and outputs, for the docker engine and the ipfs
verifier. -/
def exampleSpec (inputs outputs : List StorageSpec) : JobSpec where
  Engine := 0
  Verifier := 0
  EngineName := "docker"
  VerifierName := "ipfs"
  Docker := { Image := "ubuntu", Entrypoint := ["echo", "hi"], Env := [] }
  Resources := { CPU := "", Memory := "", GPU := "" }
  Inputs := inputs
  Outputs := outputs

/-- An input of a job file: engine name, cid, url, path. -/
def exampleInput (engineName cid url path : String) : StorageSpec where
  Engine := StorageSourceType.zero
  EngineName := engineName
  Name := ""
  Cid := cid
  URL := url
  Path := path

/-- An output of a job file: name, path. -/
def exampleOutput (name path : String) : StorageSpec where
  Engine := StorageSourceType.zero
  EngineName := ""
  Name := name
  Cid := ""
  URL := ""
  Path := path

/-- An environment for worked examples.  The file has the extension `ext`; it can be opened
and read, and each decoder yields `spec`; the storage sources `ipfs` and `urldownload`, the
engine `docker` and the verifier `ipfs` are known; job construction is `construct`; the
submission answers with the job `job-1`. -/
def exampleEnv (ext : String) (spec : JobSpec)
    (construct : ConstructArgs → Except String (JobSpec × JobDeal)) : Env where
  Ext := fun _ => ext
  Open := fun _ => .ok 3
  ReadAll := fun _ => .ok []
  JSONUnmarshal := fun _ _ => (some spec, none)
  YAMLUnmarshal := fun _ _ => (some spec, none)
  ParseStorageSourceType := fun name =>
    if name = "ipfs" then .ok .IPFS
    else if name = "urldownload" then .ok .URLDownload
    else .error "unknown source type"
  ParseEngineType := fun name => if name = "docker" then .ok 1 else .error "unknown engine type"
  ParseVerifierType := fun name => if name = "ipfs" then .ok 1 else .error "unknown verifier type"
  ValidateWorkingDir := fun _ => none
  ConstructDockerJob := construct
  Submit := fun jobSpec deal =>
    .ok { ID := "job-1", ClientID := "", RequesterNodeID := "", Spec := jobSpec, Deal := deal,
          CreatedAt := 0 }

/-- A job construction that accepts every argument list: it copies the arguments it can into
the specification. -/
def constructAny (spec : JobSpec) (args : ConstructArgs) : Except String (JobSpec × JobDeal) :=
  .ok (spec, { Concurrency := args.concurrency, AssignedNodes := [] })

/-- A job construction that rejects every argument list. -/
def constructNone (_args : ConstructArgs) : Except String (JobSpec × JobDeal) :=
  .error "protocol scheme in URL not supported"

end Apply

/-! ## `cmd/bacalhau/describe.go` -/

namespace Describe

/-- The record `eventDescription`. -/
structure eventDescription where
  Event : String
  Time : String
  Concurrency : Int
  SourceNode : String
  TargetNode : String
  Status : String
  deriving DecidableEq, Repr

/-- The record `localEventDescription`. -/
structure localEventDescription where
  Event : String
  TargetNode : String
  deriving DecidableEq, Repr

/-- The record `shardNodeStateDescription`. -/
structure shardNodeStateDescription where
  Node : String
  State : String
  Status : String
  ResultID : String
  deriving DecidableEq, Repr

/-- The record `shardStateDescription`. -/
structure shardStateDescription where
  ShardIndex : Int
  Nodes : List shardNodeStateDescription
  deriving DecidableEq, Repr

/-- The record `jobSpecDockerDescription`. -/
structure jobSpecDockerDescription where
  Image : String
  Entrypoint : List String
  Env : List String
  CPU : String
  Memory : String
  Inputs : List String
  Outputs : List String
  Annotations : List String
  deriving DecidableEq, Repr

/-- The record `jobDealDescription`. -/
structure jobDealDescription where
  Concurrency : Int
  AssignedNodes : List String
  deriving DecidableEq, Repr

/-- The record `jobSpecDescription`. -/
structure jobSpecDescription where
  Engine : String
  Verifier : String
  Docker : jobSpecDockerDescription
  Deployment : jobDealDescription
  deriving DecidableEq, Repr

/-- The record `jobDescription`. -/
structure jobDescription where
  ID : String
  ClientID : String
  RequesterNodeID : String
  Spec : jobSpecDescription
  Deal : JobDeal
  Shards : List shardStateDescription
  CreatedAt : Int
  Events : List eventDescription
  LocalEvents : List localEventDescription
  deriving DecidableEq, Repr

/-- One entry of `jobutils.FlattenShardStates(state)`: the record `executor.JobShardState` with
the fields `describe` reads.  `State` is an integer enumeration. -/
structure JobShardState where
  NodeID : String
  ShardIndex : Int
  State : Int
  Status : String
  ResultsID : String
  deriving DecidableEq, Repr

/-- The record `executor.JobEvent` with the fields `describe` reads. -/
structure JobEvent where
  EventName : Int
  Status : String
  EventTime : Int
  JobDeal : JobDeal
  SourceNodeID : String
  TargetNodeID : String
  deriving DecidableEq, Repr

/-- The record `executor.JobLocalEvent` with the fields `describe` reads. -/
structure JobLocalEvent where
  EventName : Int
  TargetNodeID : String
  deriving DecidableEq, Repr

/-- The collaborators of `describe`; `σ` is the type `executor.JobState`. -/
structure Env (σ : Type) where
  /-- The call `getAPIClient().Get(ctx, id)`: the job, the flag `ok`, the error. -/
  Get : String → Job × Bool × Option String
  /-- The call `getAPIClient().GetJobState(ctx, id)`. -/
  GetJobState : String → Except String σ
  /-- The call `getAPIClient().GetEvents(ctx, id)`. -/
  GetEvents : String → Except String (List JobEvent)
  /-- The call `getAPIClient().GetLocalEvents(ctx, id)`. -/
  GetLocalEvents : String → Except String (List JobLocalEvent)
  /-- The function `jobutils.FlattenShardStates`. -/
  FlattenShardStates : σ → List JobShardState
  /-- The order in which the Go run time ranges over the keys of a map, given the keys in the
  order of their insertion. -/
  MapRange : List Int → List Int
  /-- The method `String` of the engine kind. -/
  EngineString : Int → String
  /-- The method `String` of the verifier kind. -/
  VerifierString : Int → String
  /-- The method `String` of the shard state kind. -/
  ShardStateString : Int → String
  /-- The method `String` of the event kinds. -/
  EventNameString : Int → String
  /-- The method `String` of the local event kinds. -/
  LocalEventNameString : Int → String
  /-- The method `String` of `time.Time`. -/
  TimeString : Int → String
  /-- The function `yaml.Marshal` at `jobDescription`. -/
  YAMLMarshal : jobDescription → Except String String

/-- What a run of `describe` does, in program order. -/
inductive Effect where
  | Get (id : String)
  | GetJobState (id : String)
  | GetEvents (id : String)
  | GetLocalEvents (id : String)
  | LogError (text : String)
  | Printf (text : String)
  | Print (text : String)
  deriving DecidableEq, Repr

/-- A finished run of `describe`. -/
structure Run where
  outcome : Outcome
  trace : List Effect
  deriving DecidableEq, Repr

/-- A Go `map[int]shardStateDescription`: the entries, in the order the keys were first
inserted, with no key twice. -/
abbrev ShardMap := List (Int × shardStateDescription)

/-- The read `m[key]` with the flag `ok`. -/
def ShardMap.lookup (m : ShardMap) (key : Int) : Option shardStateDescription :=
  (m.find? (fun entry => entry.1 = key)).map (fun entry => entry.2)

/-- The write `m[key] = value`. -/
def ShardMap.insert : ShardMap → Int → shardStateDescription → ShardMap
  | [], key, value => [(key, value)]
  | entry :: rest, key, value =>
    if entry.1 = key then (key, value) :: rest
    else entry :: ShardMap.insert rest key value

/-- The read `m[key]` without the flag: the zero value when the key is absent. -/
def ShardMap.get (m : ShardMap) (key : Int) : shardStateDescription :=
  (m.lookup key).getD ⟨0, []⟩

/-- The loop of lines 145 to 160 over the flattened shard states. -/
def groupShards (shardString : Int → String) :
    List JobShardState → ShardMap → ShardMap
  | [], shardDescriptions => shardDescriptions
  | shard :: rest, shardDescriptions =>
    let shardDescription :=
      match shardDescriptions.lookup shard.ShardIndex with
      | some found => found
      | none => { ShardIndex := shard.ShardIndex, Nodes := [] }
    let shardDescription :=
      { shardDescription with
        Nodes := shardDescription.Nodes ++
          [{ Node := shard.NodeID
             State := shardString shard.State
             Status := shard.Status
             ResultID := shard.ResultsID }] }
    groupShards shardString rest (shardDescriptions.insert shard.ShardIndex shardDescription)

/-- Lines 143 to 173: the value assigned to `jobDesc.Shards`.  `range` is the order in which the
run time walks the map; `sort.Ints` puts the keys in increasing order. -/
def describeShards (shardString : Int → String) (range : List Int → List Int)
    (flattened : List JobShardState) : List shardStateDescription :=
  let shardDescriptions := groupShards shardString flattened []
  let shardIndexes := range (shardDescriptions.map (fun entry => entry.1))
  let shardIndexes := shardIndexes.insertionSort (fun a b => a ≤ b)
  shardIndexes.map (fun shardIndex => shardDescriptions.get shardIndex)

/-- Lines 117 to 194: the description that is marshalled. -/
def buildDescription {σ : Type} (env : Env σ) (job : Job) (state : σ)
    (events : List JobEvent) (localEvents : List JobLocalEvent) : jobDescription :=
  let jobDockerDesc : jobSpecDockerDescription :=
    { Image := job.Spec.Docker.Image
      Entrypoint := job.Spec.Docker.Entrypoint
      Env := job.Spec.Docker.Env
      CPU := job.Spec.Resources.CPU
      Memory := job.Spec.Resources.Memory
      Inputs := []
      Outputs := []
      Annotations := [] }
  let jobSpecDesc : jobSpecDescription :=
    { Engine := env.EngineString job.Spec.Engine
      Verifier := env.VerifierString job.Spec.Verifier
      Docker := jobDockerDesc
      Deployment := { Concurrency := 0, AssignedNodes := [] } }
  { ID := job.ID
    ClientID := job.ClientID
    RequesterNodeID := job.RequesterNodeID
    Spec := jobSpecDesc
    Deal := job.Deal
    CreatedAt := job.CreatedAt
    Shards := describeShards env.ShardStateString env.MapRange (env.FlattenShardStates state)
    Events := events.map (fun event =>
      { Event := env.EventNameString event.EventName
        Status := event.Status
        Time := env.TimeString event.EventTime
        Concurrency := event.JobDeal.Concurrency
        SourceNode := event.SourceNodeID
        TargetNode := event.TargetNodeID })
    LocalEvents := localEvents.map (fun event =>
      { Event := env.LocalEventNameString event.EventName
        TargetNode := event.TargetNodeID }) }

/-- The function `describeCmd.RunE`; `inputJobID` is `cmdArgs[0]` (cobra checks that there is
exactly one argument before it calls `RunE`). -/
def RunE {σ : Type} (env : Env σ) (inputJobID : String) : Run :=
  match env.Get inputJobID with
  | (_, _, some err) =>
    ⟨.ret (some err),
      [.Get inputJobID,
       .LogError ("Failure retrieving job ID '" ++ inputJobID ++ "': " ++ err)]⟩
  | (job, ok, none) =>
    if !ok then
      ⟨.ret none,
        [.Get inputJobID, .Printf ("No job ID found matching ID: " ++ inputJobID)]⟩
    else
      match env.GetJobState job.ID with
      | .error err =>
        ⟨.ret (some err),
          [.Get inputJobID, .GetJobState job.ID,
           .LogError ("Failure retrieving job states '" ++ job.ID ++ "': " ++ err)]⟩
      | .ok state =>
        match env.GetEvents job.ID with
        | .error err =>
          ⟨.ret (some err),
            [.Get inputJobID, .GetJobState job.ID, .GetEvents job.ID,
             .LogError ("Failure retrieving job events '" ++ job.ID ++ "': " ++ err)]⟩
        | .ok events =>
          match env.GetLocalEvents job.ID with
          | .error err =>
            ⟨.ret (some err),
              [.Get inputJobID, .GetJobState job.ID, .GetEvents job.ID, .GetLocalEvents job.ID,
               .LogError ("Failure retrieving job events '" ++ job.ID ++ "': " ++ err)]⟩
          | .ok localEvents =>
            match env.YAMLMarshal (buildDescription env job state events localEvents) with
            | .error err =>
              ⟨.ret (some err),
                [.Get inputJobID, .GetJobState job.ID, .GetEvents job.ID,
                 .GetLocalEvents job.ID,
                 .LogError ("Failure marshaling job description '" ++ job.ID ++ "': " ++ err)]⟩
            | .ok bytes =>
              ⟨.ret none,
                [.Get inputJobID, .GetJobState job.ID, .GetEvents job.ID,
                 .GetLocalEvents job.ID, .Print bytes]⟩

/-- An environment for worked examples: the API client knows no job, so `Get` answers with the
zero job, `ok = false` and no error. -/
def exampleEnv : Env Unit where
  Get := fun _ =>
    ({ ID := "", ClientID := "", RequesterNodeID := "",
       Spec :=
        { Engine := 0, Verifier := 0, EngineName := "", VerifierName := "",
          Docker := { Image := "", Entrypoint := [], Env := [] },
          Resources := { CPU := "", Memory := "", GPU := "" }, Inputs := [], Outputs := [] },
       Deal := { Concurrency := 0, AssignedNodes := [] }, CreatedAt := 0 }, false, none)
  GetJobState := fun _ => .error "job not found"
  GetEvents := fun _ => .error "job not found"
  GetLocalEvents := fun _ => .error "job not found"
  FlattenShardStates := fun _ => []
  MapRange := fun keys => keys
  EngineString := fun _ => "docker"
  VerifierString := fun _ => "ipfs"
  ShardStateString := fun _ => "new"
  EventNameString := fun _ => "created"
  LocalEventNameString := fun _ => "selected"
  TimeString := fun _ => "0001-01-01 00:00:00 +0000 UTC"
  YAMLMarshal := fun _ => .ok ""

/-- The entry that the loop of lines 145 to 160 appends to `Nodes` for one flattened shard
state (lines 153 to 158). -/
def describeNode (shardString : Int → String) (shard : JobShardState) :
    shardNodeStateDescription where
  Node := shard.NodeID
  State := shardString shard.State
  Status := shard.Status
  ResultID := shard.ResultsID

/-- A flattened shard state for worked examples: the node, the shard index, the results id. -/
def exampleShard (node : String) (shardIndex : Int) (results : String) : JobShardState where
  NodeID := node
  ShardIndex := shardIndex
  State := 0
  Status := ""
  ResultsID := results

/-- An environment for worked examples: the job state is the list of its flattened shard
states, and the run time walks a map from the key inserted last to the key inserted first. -/
def shardsEnv : Env (List JobShardState) where
  Get := exampleEnv.Get
  GetJobState := fun _ => .ok []
  GetEvents := fun _ => .ok []
  GetLocalEvents := fun _ => .ok []
  FlattenShardStates := fun state => state
  MapRange := fun keys => keys.reverse
  EngineString := fun _ => "docker"
  VerifierString := fun _ => "ipfs"
  ShardStateString := fun _ => "new"
  EventNameString := fun _ => "created"
  LocalEventNameString := fun _ => "selected"
  TimeString := fun _ => "0001-01-01 00:00:00 +0000 UTC"
  YAMLMarshal := fun _ => .ok ""

end Describe

/-! ## `cmd/bacalhau/serve.go` -/

namespace Serve

/-- Modelled from the spec: the locality option of the job selection policy,
`locality ∈ {local, anywhere}`; the declaration `computenode.JobSelectionDataLocality` with
its constants `Local` and `Anywhere` is not among the embedded files. -/
inductive JobSelectionDataLocality where
  | Local
  | Anywhere
  deriving DecidableEq, Repr

/-- The record `computenode.JobSelectionPolicy`. -/
structure JobSelectionPolicy where
  Locality : JobSelectionDataLocality
  RejectStatelessJobs : Bool
  ProbeHTTP : String
  ProbeExec : String
  deriving DecidableEq, Repr

/-- The record `capacitymanager.Config`. -/
structure CapacityManagerConfig where
  ResourceLimitTotal : ResourceUsageConfig
  ResourceLimitJob : ResourceUsageConfig
  deriving DecidableEq, Repr

/-- The record `computenode.ComputeNodeConfig`. -/
structure ComputeNodeConfig where
  JobSelectionPolicy : JobSelectionPolicy
  CapacityManagerConfig : CapacityManagerConfig
  deriving DecidableEq, Repr

/-- The package level variables of `serve.go`; `apiPort` is declared elsewhere in the
package. -/
structure Globals where
  peerConnect : String
  ipfsConnect : String
  hostAddress : String
  hostPort : Int
  jobSelectionDataLocality : String
  jobSelectionDataRejectStateless : Bool
  jobSelectionProbeHTTP : String
  jobSelectionProbeExec : String
  metricsPort : Int
  limitTotalCPU : String
  limitTotalMemory : String
  limitTotalGPU : String
  limitJobCPU : String
  limitJobMemory : String
  limitJobGPU : String
  apiPort : Int
  deriving DecidableEq, Repr

/-- The variable `DefaultBootstrapAddresses`. -/
def DefaultBootstrapAddresses : List String :=
  [ "/ip4/35.245.115.191/tcp/1235/p2p/QmdZQ7ZbhnvWY1J12XYKGHApJ6aufKyLNSvf8jZBrBaAVL",
    "/ip4/35.245.61.251/tcp/1235/p2p/QmXaXu9N5GNetatsvwnTfQqNtSeKAD6uCmarbh3LMRYAcF",
    "/ip4/35.245.251.239/tcp/1235/p2p/QmYgxZiySj3MRkwLSL4X2MF5F9f2PMhAE3LV49XkfNL1o3" ]

/-- The variable `DefaultSwarmPort`. -/
def DefaultSwarmPort : Int := 1235

/-- The globals as the flag declarations of `init`, `setupJobSelectionCLIFlags` and
`setupCapacityManagerCLIFlags` leave them when no flag is given. -/
def Globals.defaults (apiPort : Int) : Globals where
  peerConnect := ""
  ipfsConnect := ""
  hostAddress := "0.0.0.0"
  hostPort := DefaultSwarmPort
  jobSelectionDataLocality := "local"
  jobSelectionDataRejectStateless := false
  jobSelectionProbeHTTP := ""
  jobSelectionProbeExec := ""
  metricsPort := 2112
  limitTotalCPU := ""
  limitTotalMemory := ""
  limitTotalGPU := ""
  limitJobCPU := ""
  limitJobMemory := ""
  limitJobGPU := ""
  apiPort := apiPort

/-- The function `getJobSelectionConfig`. -/
def getJobSelectionConfig (g : Globals) : JobSelectionPolicy :=
  let typedJobSelectionDataLocality := JobSelectionDataLocality.Anywhere
  let typedJobSelectionDataLocality :=
    if g.jobSelectionDataLocality = "anywhere" then JobSelectionDataLocality.Anywhere
    else typedJobSelectionDataLocality
  { Locality := typedJobSelectionDataLocality
    RejectStatelessJobs := g.jobSelectionDataRejectStateless
    ProbeHTTP := g.jobSelectionProbeHTTP
    ProbeExec := g.jobSelectionProbeExec }

/-- The function `getCapacityManagerConfig`: the total limits, then the limits by job. -/
def getCapacityManagerConfig (g : Globals) : ResourceUsageConfig × ResourceUsageConfig :=
  let totalResourceLimit : ResourceUsageConfig :=
    { CPU := g.limitTotalCPU, Memory := g.limitTotalMemory, GPU := g.limitTotalGPU }
  let jobResourceLimit : ResourceUsageConfig :=
    { CPU := g.limitJobCPU, Memory := g.limitJobMemory, GPU := g.limitJobGPU }
  (totalResourceLimit, jobResourceLimit)

/-- The collaborators of `serve`: each constructor either fails with an error or succeeds (the
objects they build are passed on untouched, so they are not part of the model). -/
structure Env where
  /-- The function `inmemory.NewInMemoryDatastore`. -/
  NewInMemoryDatastore : Option String
  /-- The function `libp2p.NewTransport`, at the port and the peers. -/
  NewTransport : Int → List String → Option String
  /-- The method `transport.HostID`. -/
  HostID : Except String String
  /-- The function `executor_util.NewStandardStorageProviders`, at the ipfs address. -/
  NewStandardStorageProviders : String → Option String
  /-- The function `controller.NewController`. -/
  NewController : Option String
  /-- The function `executor_util.NewStandardExecutors`, at the ipfs address and the id. -/
  NewStandardExecutors : String → String → Option String
  /-- The function `verifier_util.NewIPFSVerifiers`, at the ipfs address. -/
  NewIPFSVerifiers : String → Option String
  /-- The function `requesternode.NewRequesterNode`. -/
  NewRequesterNode : Option String
  /-- The function `computenode.NewComputeNode`, at the configuration. -/
  NewComputeNode : ComputeNodeConfig → Option String

/-- What a run of `serve` does, in program order. -/
inductive Effect where
  | NewCleanupManager
  | RegisterCallback (name : String)
  | LogDebug (text : String)
  | NewInMemoryDatastore
  | NewTransport (port : Int) (peers : List String)
  | HostID
  | NewStandardStorageProviders (ipfsConnect : String)
  | NewController
  | NewStandardExecutors (ipfsConnect : String) (id : String)
  | NewIPFSVerifiers (ipfsConnect : String)
  | NewRequesterNode
  | NewComputeNode (config : ComputeNodeConfig)
  | NewServer (host : String) (port : Int)
  | Serving (metricsPort : Int)
  | Cleanup
  deriving DecidableEq, Repr

/-- A finished run of `serve`. -/
structure Run where
  outcome : Outcome
  trace : List Effect
  deriving DecidableEq, Repr

/-- Lines 171 to 176: the peers to connect to. -/
def peers (g : Globals) : List String :=
  if g.peerConnect = "none" then []
  else if g.peerConnect ≠ "" then [g.peerConnect]
  else DefaultBootstrapAddresses

/-- The steps of lines 180 to 266, each of which returns its error, and what is done when all
of them succeed: the servers are started (line 268 to 299) and the function blocks until the
process is signalled, then returns `nil`. -/
def startNode (env : Env) (g : Globals) : Outcome × List Effect :=
  match env.NewInMemoryDatastore with
  | some err => (.ret (some err), [.NewInMemoryDatastore])
  | none =>
  match env.NewTransport g.hostPort (peers g) with
  | some err => (.ret (some err), [.NewInMemoryDatastore, .NewTransport g.hostPort (peers g)])
  | none =>
  let done1 : List Effect := [.NewInMemoryDatastore, .NewTransport g.hostPort (peers g), .HostID]
  match env.HostID with
  | .error err => (.ret (some err), done1)
  | .ok hostID =>
  let done2 := done1 ++ [.NewStandardStorageProviders g.ipfsConnect]
  match env.NewStandardStorageProviders g.ipfsConnect with
  | some err => (.ret (some err), done2)
  | none =>
  let done3 := done2 ++ [.NewController]
  match env.NewController with
  | some err => (.ret (some err), done3)
  | none =>
  let done4 := done3 ++ [.NewStandardExecutors g.ipfsConnect ("bacalhau-" ++ hostID)]
  match env.NewStandardExecutors g.ipfsConnect ("bacalhau-" ++ hostID) with
  | some err => (.ret (some err), done4)
  | none =>
  let done5 := done4 ++ [.NewIPFSVerifiers g.ipfsConnect]
  match env.NewIPFSVerifiers g.ipfsConnect with
  | some err => (.ret (some err), done5)
  | none =>
  let jobSelectionPolicy := getJobSelectionConfig g
  let limits := getCapacityManagerConfig g
  let computeNodeConfig : ComputeNodeConfig :=
    { JobSelectionPolicy := jobSelectionPolicy
      CapacityManagerConfig :=
        { ResourceLimitTotal := limits.1, ResourceLimitJob := limits.2 } }
  let done6 := done5 ++ [.NewRequesterNode]
  match env.NewRequesterNode with
  | some err => (.ret (some err), done6)
  | none =>
  let done7 := done6 ++ [.NewComputeNode computeNodeConfig]
  match env.NewComputeNode computeNodeConfig with
  | some err => (.ret (some err), done7)
  | none =>
    (.ret none,
      done7 ++ [.NewServer g.hostAddress g.apiPort, .Serving g.metricsPort,
        .LogDebug ("libp2p server started: " ++ toString g.hostPort),
        .LogDebug ("Bacalhau compute node started - peer id is: " ++ hostID)])

/-- The function `serveCmd.RunE`.  The clean up manager is made after the two checks of the
flags, and its `Cleanup` is deferred, so it closes every run that got past them. -/
def RunE (env : Env) (g : Globals) : Run :=
  if g.ipfsConnect = "" then
    ⟨.ret (some "must specify ipfs-connect"), []⟩
  else if g.jobSelectionDataLocality ≠ "local" ∧ g.jobSelectionDataLocality ≠ "anywhere" then
    ⟨.ret (some "job-selection-data-locality must be either 'local' or 'anywhere'"), []⟩
  else
    let started := startNode env g
    ⟨started.1,
      [.NewCleanupManager, .RegisterCallback "system.CleanupTracer",
         .LogDebug ("libp2p connecting to: " ++ ", ".intercalate (peers g))]
        ++ started.2 ++ [.Cleanup]⟩

/-- An environment for worked examples: every constructor succeeds, and the host has the id
`QmHost`. -/
def exampleEnv : Env where
  NewInMemoryDatastore := none
  NewTransport := fun _ _ => none
  HostID := .ok "QmHost"
  NewStandardStorageProviders := fun _ => none
  NewController := none
  NewStandardExecutors := fun _ _ => none
  NewIPFSVerifiers := fun _ => none
  NewRequesterNode := none
  NewComputeNode := fun _ => none

end Serve

/-! ## `pkg/storage/url/urldownload/storage.go` -/

namespace URLDownload

/-- Modelled from the spec: the kind of a volume, `storage.StorageVolumeConnectorType`, whose
declaration is not among the embedded files.  The embedded code names the constant
`StorageVolumeConnectorBind`; `Unknown` is the zero value. -/
inductive StorageVolumeConnectorType where
  | Unknown
  | Bind
  deriving DecidableEq, Repr

/-- The record `storage.StorageVolume`; `Type_` is its field `Type`. -/
structure StorageVolume where
  Type_ : StorageVolumeConnectorType
  Source : String
  Target : String
  deriving DecidableEq, Repr

/-- The value `storage.StorageVolume{}`. -/
def StorageVolume.empty : StorageVolume := ⟨.Unknown, "", ""⟩

/-- The record `StorageProvider`; the resty client it points to is reached through the
environment. -/
structure StorageProvider where
  LocalDir : String
  deriving DecidableEq, Repr

/-- The record `url.URL` of the Go standard library, with the field the driver reads. -/
structure URL where
  Scheme : String
  deriving DecidableEq, Repr

/-- The collaborators of the driver. -/
structure Env where
  /-- The function `url.ParseRequestURI`. -/
  ParseRequestURI : String → Except String URL
  /-- The function `ioutil.TempDir`, at the directory and the pattern: it makes a new directory
  and gives its path. -/
  TempDir : String → String → Except String String
  /-- The function `config.GetDownloadURLRequestTimeout`. -/
  GetDownloadURLRequestTimeout : Int
  /-- The request `sp.HTTPClient.R().SetOutput(output).Get(url)`: its error. -/
  Download : String → String → Option String
  /-- The function `filepath.Dir`. -/
  Dir : String → String
  /-- The function `system.RunCommand`, at the command and its arguments. -/
  RunCommand : String → List String → Option String

/-- What a call into the driver does, in program order. -/
inductive Effect where
  | TempDir (dir : String) (pattern : String)
  | SetTimeout (timeout : Int)
  | Download (output : String) (url : String)
  | LogDebug (text : String)
  | RunCommand (command : String) (args : List String)
  deriving DecidableEq, Repr

/-- The function `IsURLSupported`. -/
def IsURLSupported (env : Env) (rawURL : String) : Bool × Option String :=
  match env.ParseRequestURI rawURL with
  | .error err => (false, some err)
  | .ok parsedURL =>
    if parsedURL.Scheme = "http" ∨ parsedURL.Scheme = "https" then (true, none)
    else (false, some ("protocol scheme in URL not supported: " ++ rawURL))

/-- The method `PrepareStorage`: the volume, the error, and what was done. -/
def PrepareStorage (env : Env) (sp : StorageProvider) (storageSpec : StorageSpec) :
    (StorageVolume × Option String) × List Effect :=
  match (IsURLSupported env storageSpec.URL).2 with
  | some err => ((StorageVolume.empty, some err), [])
  | none =>
    match env.TempDir sp.LocalDir "*" with
    | .error err => ((StorageVolume.empty, some err), [.TempDir sp.LocalDir "*"])
    | .ok outputPath =>
      let done : List Effect :=
        [.TempDir sp.LocalDir "*", .SetTimeout env.GetDownloadURLRequestTimeout,
         .Download (outputPath ++ "/file") storageSpec.URL]
      match env.Download (outputPath ++ "/file") storageSpec.URL with
      | some err => ((StorageVolume.empty, some err), done)
      | none =>
        (({ Type_ := .Bind, Source := outputPath ++ "/file", Target := storageSpec.Path }, none),
          done)

/-- The method `CleanupStorage`: the error, and what was done. -/
def CleanupStorage (env : Env) (_sp : StorageProvider) (_storageSpec : StorageSpec)
    (volume : StorageVolume) : Option String × List Effect :=
  let pathToCleanup := env.Dir volume.Source
  (env.RunCommand "sudo" ["rm", "-rf", pathToCleanup],
    [.LogDebug ("Cleaning up: " ++ pathToCleanup),
     .RunCommand "sudo" ["rm", "-rf", pathToCleanup]])

/-- The method `Explode`: the list, and the error. -/
def Explode (_sp : StorageProvider) (spec : StorageSpec) : List StorageSpec × Option String :=
  ([{ Name := spec.Name
      Engine := StorageSourceType.URLDownload
      Path := spec.Path
      URL := spec.URL
      EngineName := ""
      Cid := "" }], none)

/-- An environment for worked examples.  Two URLs are request URIs, one with the scheme `http`
and one with the scheme `ftp`; the new directory is `123` under the directory asked for; the
download succeeds; `Dir` cuts a path after its last separator and drops that separator. -/
def exampleEnv : Env where
  ParseRequestURI := fun rawURL =>
    if rawURL = "http://example.com/data.csv" then .ok ⟨"http"⟩
    else if rawURL = "ftp://x" then .ok ⟨"ftp"⟩
    else .error "invalid URI for request"
  TempDir := fun dir _ => .ok (dir ++ "/123")
  GetDownloadURLRequestTimeout := 300
  Download := fun _ _ => none
  Dir := fun path => String.mk ((path.data.reverse.dropWhile (fun c => c ≠ '/')).drop 1).reverse
  RunCommand := fun _ _ => none

/-- A storage specification for worked examples: the URL, mounted at the path. -/
def exampleSpec (url path : String) : StorageSpec where
  Engine := StorageSourceType.URLDownload
  EngineName := "urldownload"
  Name := "data"
  Cid := ""
  URL := url
  Path := path

end URLDownload

/-! ## `pkg/verifier/ipfs/verifier.go` -/

namespace Verifier

/-- One entry of the list that `resolver.GetResults` returns, with the fields the verifier
reads. -/
structure ShardResult where
  ShardIndex : Int
  ResultsID : String
  deriving DecidableEq, Repr

/-- The collaborators of the verifier. -/
structure Env where
  /-- The call `v.getStateResolver().GetResults(ctx, jobID)`. -/
  GetResults : String → Except String (List ShardResult)

/-- The value `fmt.Sprintf("shard%d", shardIndex)`. -/
def shardName (shardIndex : Int) : String :=
  "shard" ++ toString shardIndex

/-- The loop of lines 74 to 81, started with the current value of `results`. -/
def appendResults : List ShardResult → List StorageSpec → List StorageSpec
  | [], results => results
  | shardResult :: rest, results =>
    appendResults rest
      (results ++
        [{ Name := shardName shardResult.ShardIndex
           Path := shardName shardResult.ShardIndex
           Engine := StorageSourceType.IPFS
           Cid := shardResult.ResultsID
           EngineName := ""
           URL := "" }])

/-- The method `GetJobResultSet`: the list, and the error. -/
def GetJobResultSet (env : Env) (jobID : String) : List StorageSpec × Option String :=
  let results : List StorageSpec := []
  match env.GetResults jobID with
  | .error _ => (results, none)
  | .ok shardResults => (appendResults shardResults results, none)

/-- An environment for worked examples: the job `job-1` has results for the shards 0 and 2,
and every other job cannot be looked up. -/
def exampleEnv : Env where
  GetResults := fun jobID =>
    if jobID = "job-1" then .ok [⟨0, "QmFirst"⟩, ⟨2, "QmThird"⟩]
    else .error "job not found"

end Verifier

end Bacalhau

/-! ## Properties of `apply` -/

namespace Bacalhau

namespace Apply

theorem collectOutputs_eq (outputs : List StorageSpec) (volumes : List String) :
    collectOutputs outputs volumes =
      volumes ++ outputs.map (fun output => output.Name ++ ":" ++ output.Path) := by
  induction outputs generalizing volumes with
  | nil => simp [collectOutputs]
  | cons output rest ih => simp [collectOutputs, ih]

theorem validateInputs_none_iff (parse : String → Except String StorageSourceType)
    (inputs : List StorageSpec) (urls volumes : List String) :
    (validateInputs parse inputs urls volumes).2 = none ↔
      ∀ input ∈ inputs, InputOK parse input := by
  induction inputs generalizing urls volumes with
  | nil => simp [validateInputs]
  | cons x rest ih =>
    rw [List.forall_mem_cons]
    unfold validateInputs
    cases hp : parse x.EngineName with
    | error e => simp [InputOK, hp]
    | ok t =>
      by_cases hpath : x.Path = ""
      · simp [InputOK, hpath]
      · by_cases hipfs : t = StorageSourceType.IPFS
        · subst hipfs
          by_cases hcid : x.Cid = ""
          · simp [InputOK, hp, hpath, hcid]
          · simp [InputOK, hp, hpath, hcid, ih]
        · by_cases hurl : t = StorageSourceType.URLDownload
          · subst hurl
            by_cases hu : x.URL = ""
            · simp [InputOK, hp, hpath, hu]
            · simp [InputOK, hp, hpath, hu, ih]
          · simp [InputOK, hp, hpath, hipfs, hurl]

/-- The globals `g1` are the globals `g` but for the pointer `jobspec`. -/
theorem Globals.sameButJobspec_iff (g g1 : Globals) :
    g1 = { g with jobspec := g1.jobspec } ↔
      g1.filename = g.filename ∧ g1.jobConcurrency = g.jobConcurrency ∧
      g1.jobInputUrls = g.jobInputUrls ∧ g1.jobInputVolumes = g.jobInputVolumes ∧
      g1.jobOutputVolumes = g.jobOutputVolumes ∧ g1.jobWorkingDir = g.jobWorkingDir ∧
      g1.jobLabels = g.jobLabels ∧ g1.doNotTrack = g.doNotTrack := by
  cases g; cases g1; simp

theorem decodeJSON_ok {env : Env} {ext : String} {bytes : List Nat} {g g1 : Globals}
    {done : List Effect} (h : decodeJSON env ext bytes g = .ok (g1, done)) :
    g1 = { g with jobspec := g1.jobspec } ∧ ∀ e ∈ done, e.isDecode = true := by
  unfold decodeJSON at h
  split at h
  · dsimp only at h
    split at h
    · cases h
    · cases h; simp [Effect.isDecode]
  · cases h; simp

theorem decodeYAML_ok {env : Env} {ext : String} {bytes : List Nat} {g g1 : Globals}
    {done0 done : List Effect} (h : decodeYAML env ext bytes g done0 = .ok (g1, done))
    (h0 : ∀ e ∈ done0, e.isDecode = true) :
    g1 = { g with jobspec := g1.jobspec } ∧ ∀ e ∈ done, e.isDecode = true := by
  unfold decodeYAML at h
  split at h
  · dsimp only at h
    split at h
    · cases h
    · cases h
      refine ⟨rfl, ?_⟩
      intro e he
      rcases List.mem_append.mp he with he | he
      · exact h0 e he
      · simp at he; subst he; rfl
  · cases h; exact ⟨rfl, h0⟩

theorem decodeJobFile_ok {env : Env} {g g1 : Globals} {done : List Effect}
    (h : decodeJobFile env g = .ok (g1, done)) :
    g1 = { g with jobspec := g1.jobspec } ∧ ∀ e ∈ done, e.isDecode = true := by
  unfold decodeJobFile at h
  dsimp only at h
  split at h
  · cases h
  · split at h
    · cases h
    · split at h
      · cases h
      · rename_i g2 done2 hj
        have hj2 := decodeJSON_ok hj
        have hy := decodeYAML_ok h hj2.2
        refine ⟨?_, hy.2⟩
        rw [Globals.sameButJobspec_iff] at *
        obtain ⟨a1, a2, a3, a4, a5, a6, a7, a8⟩ := hj2.1
        obtain ⟨b1, b2, b3, b4, b5, b6, b7, b8⟩ := hy.1
        exact ⟨b1.trans a1, b2.trans a2, b3.trans a3, b4.trans a4, b5.trans a5, b6.trans a6,
          b7.trans a7, b8.trans a8⟩

theorem checkInputs_eq (env : Env) (spec : JobSpec) (g : Globals) :
    checkInputs env spec g =
      validateInputs env.ParseStorageSourceType spec.Inputs g.jobInputUrls g.jobInputVolumes := by
  unfold checkInputs
  cases h : spec.Inputs with
  | nil => simp [validateInputs]
  | cons x rest => simp

theorem gatherOutputs_eq (spec : JobSpec) (volumes : List String) :
    gatherOutputs spec volumes =
      volumes ++ spec.Outputs.map (fun output => output.Name ++ ":" ++ output.Path) ++
        ["outputs:/outputs"] := by
  unfold gatherOutputs
  cases h : spec.Outputs with
  | nil => simp
  | cons x rest => simp [collectOutputs_eq]

theorem constructAndSubmit_globals (env : Env) (spec : JobSpec) (g : Globals)
    (done : List Effect) : (constructAndSubmit env spec g done).globals = g := by
  unfold constructAndSubmit
  repeat' split
  all_goals rfl

/-- Every step of `constructAndSubmit` is a step done before, a line printed, the one call of
job construction, or the submission of what job construction gave. -/
theorem constructAndSubmit_trace (env : Env) (spec : JobSpec) (g : Globals)
    (done : List Effect) (e : Effect) (he : e ∈ (constructAndSubmit env spec g done).trace) :
    e ∈ done ∨ (∃ text, e = .Printf text) ∨
      (∃ engineType verifierType,
        e = .ConstructDockerJob (constructArgs engineType verifierType spec g)) ∨
      (∃ engineType verifierType jobSpec deal, e = .Submit jobSpec deal ∧
        env.ConstructDockerJob (constructArgs engineType verifierType spec g) =
          .ok (jobSpec, deal)) := by
  unfold constructAndSubmit at he
  repeat' split at he
  all_goals simp only [List.mem_append, List.mem_cons, List.mem_singleton, List.not_mem_nil,
    or_false] at he
  · rcases he with he | he
    · exact Or.inl he
    · exact Or.inr (Or.inl ⟨_, he⟩)
  · rcases he with he | he
    · exact Or.inl he
    · exact Or.inr (Or.inl ⟨_, he⟩)
  · exact Or.inl he
  · rcases he with he | he
    · exact Or.inl he
    · exact Or.inr (Or.inr (Or.inl ⟨_, _, he⟩))
  · rename_i hc _ _ _
    rcases he with he | he | he
    · exact Or.inl he
    · exact Or.inr (Or.inr (Or.inl ⟨_, _, he⟩))
    · exact Or.inr (Or.inr (Or.inr ⟨_, _, _, _, he, hc⟩))
  · rename_i hc _ _ _
    rcases he with he | he | he | he
    · exact Or.inl he
    · exact Or.inr (Or.inr (Or.inl ⟨_, _, he⟩))
    · exact Or.inr (Or.inr (Or.inr ⟨_, _, _, _, he, hc⟩))
    · exact Or.inr (Or.inl ⟨_, he⟩)

/-- When the engine, the verifier and the working directory are accepted, job construction is
called. -/
theorem constructAndSubmit_calls (env : Env) (spec : JobSpec) (g : Globals)
    (done : List Effect) (engineType verifierType : Int)
    (hengine : env.ParseEngineType spec.EngineName = .ok engineType)
    (hverifier : env.ParseVerifierType spec.VerifierName = .ok verifierType)
    (hdir : checkWorkingDir env g = none) :
    Effect.ConstructDockerJob (constructArgs engineType verifierType spec g) ∈
      (constructAndSubmit env spec g done).trace := by
  unfold constructAndSubmit
  rw [hengine, hverifier, hdir]
  dsimp only
  repeat' split
  all_goals simp

theorem checkWorkingDir_congr (env : Env) (g g1 : Globals)
    (h : g1.jobWorkingDir = g.jobWorkingDir) : checkWorkingDir env g1 = checkWorkingDir env g := by
  unfold checkWorkingDir
  rw [h]

/-- A run that decodes the job file and passes the validation of the inputs goes on to lines
122 to 168 with the globals given here. -/
theorem RunE_of_valid {env : Env} {g g1 : Globals} {done : List Effect} {spec : JobSpec}
    (hdecode : decodeJobFile env g = .ok (g1, done)) (hspec : g1.jobspec = some spec)
    (hvalid : (checkInputs env spec g1).2 = none) :
    RunE env g = constructAndSubmit env spec
      { g1 with
        jobInputUrls := (checkInputs env spec g1).1.1
        jobInputVolumes := (checkInputs env spec g1).1.2
        jobOutputVolumes := gatherOutputs spec g1.jobOutputVolumes } done := by
  unfold RunE
  rw [hdecode]
  dsimp only
  unfold validateAndSubmit
  rw [hspec]
  dsimp only
  rw [hvalid]

/-- A run that decodes the job file and fails the validation of the inputs returns the error of
the validation, having done nothing but decode. -/
theorem RunE_of_invalid {env : Env} {g g1 : Globals} {done : List Effect} {spec : JobSpec}
    {err : Error}
    (hdecode : decodeJobFile env g = .ok (g1, done)) (hspec : g1.jobspec = some spec)
    (hinvalid : (checkInputs env spec g1).2 = some err) :
    (RunE env g).result = .ret (some err) ∧ (RunE env g).trace = done := by
  unfold RunE
  rw [hdecode]
  dsimp only
  unfold validateAndSubmit
  rw [hspec]
  dsimp only
  rw [hinvalid]
  exact ⟨rfl, rfl⟩

/-- C1: for a job file that is decoded and passes the validation of the inputs, with
`jobOutputVolumes` empty at the start, the list of output volumes that `apply` leaves in
`jobOutputVolumes` and hands to `job.ConstructDockerJob` is one `Name:Path` string for each
declared output, in the order of declaration, followed by `outputs:/outputs`; job construction
is called whenever the engine, the verifier and the working directory are accepted; and with no
declared output the list is just `outputs:/outputs`. -/
theorem apply_output_volumes (env : Env) (g g1 : Globals) (done : List Effect) (spec : JobSpec)
    (hdecode : decodeJobFile env g = .ok (g1, done)) (hspec : g1.jobspec = some spec)
    (hvalid : (checkInputs env spec g1).2 = none)
    (hempty : g.jobOutputVolumes = []) :
    (RunE env g).globals.jobOutputVolumes =
        spec.Outputs.map (fun output => output.Name ++ ":" ++ output.Path) ++
          ["outputs:/outputs"] ∧
    (∀ args, Effect.ConstructDockerJob args ∈ (RunE env g).trace →
        args.outputVolumes =
          spec.Outputs.map (fun output => output.Name ++ ":" ++ output.Path) ++
            ["outputs:/outputs"]) ∧
    (∀ engineType verifierType,
        env.ParseEngineType spec.EngineName = .ok engineType →
        env.ParseVerifierType spec.VerifierName = .ok verifierType →
        checkWorkingDir env g = none →
        ∃ args, Effect.ConstructDockerJob args ∈ (RunE env g).trace) ∧
    (spec.Outputs = [] → (RunE env g).globals.jobOutputVolumes = ["outputs:/outputs"]) := by
  have hsame := (Globals.sameButJobspec_iff g g1).mp (decodeJobFile_ok hdecode).1
  have hdone := (decodeJobFile_ok hdecode).2
  have hout : gatherOutputs spec g1.jobOutputVolumes =
      spec.Outputs.map (fun output => output.Name ++ ":" ++ output.Path) ++
        ["outputs:/outputs"] := by
    rw [gatherOutputs_eq, hsame.2.2.2.2.1, hempty]
    simp
  have hglobals : (RunE env g).globals.jobOutputVolumes =
      spec.Outputs.map (fun output => output.Name ++ ":" ++ output.Path) ++
        ["outputs:/outputs"] := by
    rw [RunE_of_valid hdecode hspec hvalid, constructAndSubmit_globals]
    exact hout
  refine ⟨hglobals, ?_, ?_, ?_⟩
  · intro args hargs
    rw [RunE_of_valid hdecode hspec hvalid] at hargs
    rcases constructAndSubmit_trace _ _ _ _ _ hargs with h | ⟨_, h⟩ | ⟨_, _, h⟩ | ⟨_, _, _, _, h, _⟩
    · have := hdone _ h
      simp [Effect.isDecode] at this
    · cases h
    · cases h
      exact hout
    · cases h
  · intro engineType verifierType hengine hverifier hdir
    rw [RunE_of_valid hdecode hspec hvalid]
    refine ⟨_, constructAndSubmit_calls env spec _ done engineType verifierType hengine hverifier ?_⟩
    rw [← hdir]
    exact checkWorkingDir_congr env g _ hsame.2.2.2.2.2.1
  · intro hnone
    rw [hglobals, hnone]
    rfl

/-- C1, at a job file `job.json` with no input and the two outputs `results:/data` and
`logs:/var/log`. -/
theorem apply_output_volumes_witness :
    (RunE
      (exampleEnv ".json"
        (exampleSpec [] [exampleOutput "results" "/data",
          exampleOutput "logs" "/var/log"])
        (constructAny (exampleSpec [] [])))
      (Globals.atStart "job.json" 1 [])).globals.jobOutputVolumes =
      ["results:/data", "logs:/var/log", "outputs:/outputs"] :=
  (apply_output_volumes
    (exampleEnv ".json"
      (exampleSpec [] [exampleOutput "results" "/data",
        exampleOutput "logs" "/var/log"])
      (constructAny (exampleSpec [] [])))
    (Globals.atStart "job.json" 1 [])
    { Globals.atStart "job.json" 1 [] with
      jobspec := some (exampleSpec [] [exampleOutput "results" "/data",
        exampleOutput "logs" "/var/log"]) }
    [.JSONUnmarshal []]
    (exampleSpec [] [exampleOutput "results" "/data",
      exampleOutput "logs" "/var/log"])
    rfl rfl rfl rfl).1

/-- C2: for a job file that is decoded, the validation of the inputs succeeds exactly when each
input has an engine name that parses to IPFS or URL download, a path that is not empty, and a
cid (for IPFS) or a URL (for URL download) that is not empty; and when some input does not,
`apply` returns an error and neither constructs nor submits a job. -/
theorem apply_input_validation (env : Env) (g g1 : Globals) (done : List Effect)
    (spec : JobSpec)
    (hdecode : decodeJobFile env g = .ok (g1, done)) (hspec : g1.jobspec = some spec) :
    ((checkInputs env spec g1).2 = none ↔
        ∀ input ∈ spec.Inputs, InputOK env.ParseStorageSourceType input) ∧
    ((∃ input ∈ spec.Inputs, ¬ InputOK env.ParseStorageSourceType input) →
        (∃ err, (RunE env g).result = .ret (some err)) ∧
        (∀ args, Effect.ConstructDockerJob args ∉ (RunE env g).trace) ∧
        (∀ jobSpec deal, Effect.Submit jobSpec deal ∉ (RunE env g).trace)) := by
  have hiff : (checkInputs env spec g1).2 = none ↔
      ∀ input ∈ spec.Inputs, InputOK env.ParseStorageSourceType input := by
    rw [checkInputs_eq]
    exact validateInputs_none_iff _ _ _ _
  refine ⟨hiff, ?_⟩
  rintro ⟨input, hmem, hbad⟩
  have hdone := (decodeJobFile_ok hdecode).2
  cases hc : (checkInputs env spec g1).2 with
  | none => exact absurd (hiff.mp hc input hmem) hbad
  | some err =>
    have hrun := RunE_of_invalid hdecode hspec hc
    refine ⟨⟨err, hrun.1⟩, ?_, ?_⟩
    · intro args hargs
      rw [hrun.2] at hargs
      have := hdone _ hargs
      simp [Effect.isDecode] at this
    · intro jobSpec deal hsub
      rw [hrun.2] at hsub
      have := hdone _ hsub
      simp [Effect.isDecode] at this

/-- C2, at a job file `job.json` whose one input, for the engine `ipfs`, has a cid and no mount
path: the run ends with an error. -/
theorem apply_input_validation_witness :
    ∃ err, (RunE
      (exampleEnv ".json" (exampleSpec [exampleInput "ipfs" "QmAbc" "" ""] [])
        (constructAny (exampleSpec [] [])))
      (Globals.atStart "job.json" 1 [])).result = .ret (some err) :=
  ((apply_input_validation
    (exampleEnv ".json" (exampleSpec [exampleInput "ipfs" "QmAbc" "" ""] [])
      (constructAny (exampleSpec [] [])))
    (Globals.atStart "job.json" 1 [])
    { Globals.atStart "job.json" 1 [] with
      jobspec := some (exampleSpec [exampleInput "ipfs" "QmAbc" "" ""] []) }
    [.JSONUnmarshal []]
    (exampleSpec [exampleInput "ipfs" "QmAbc" "" ""] [])
    rfl rfl).2
    ⟨exampleInput "ipfs" "QmAbc" "" "", List.mem_singleton.mpr rfl,
      fun h => h.1 rfl⟩).1

theorem validateInputs_urls_mono (parse : String → Except String StorageSourceType)
    (inputs : List StorageSpec) (urls volumes : List String) (u : String) (hu : u ∈ urls) :
    u ∈ (validateInputs parse inputs urls volumes).1.1 := by
  induction inputs generalizing urls volumes with
  | nil => exact hu
  | cons x rest ih =>
    unfold validateInputs
    repeat' split
    all_goals first
      | exact hu
      | exact ih _ _ hu
      | exact ih _ _ (List.mem_append_left _ hu)

theorem validateInputs_url_mem (parse : String → Except String StorageSourceType)
    (inputs : List StorageSpec) (urls volumes : List String) (input : StorageSpec)
    (hmem : input ∈ inputs) (hengine : parse input.EngineName = .ok .URLDownload)
    (hvalid : (validateInputs parse inputs urls volumes).2 = none) :
    (input.URL ++ ":" ++ input.Path) ∈ (validateInputs parse inputs urls volumes).1.1 := by
  induction inputs generalizing urls volumes with
  | nil => cases hmem
  | cons x rest ih =>
    rcases List.mem_cons.mp hmem with heq | hrest
    · subst heq
      unfold validateInputs at hvalid ⊢
      rw [hengine] at hvalid ⊢
      dsimp only at hvalid ⊢
      by_cases hpath : input.Path = ""
      · simp [hpath] at hvalid
      · by_cases hurl : input.URL = ""
        · simp [hpath, hurl] at hvalid
        · simp only [hpath, hurl, if_false, reduceCtorEq]
          exact validateInputs_urls_mono _ _ _ _ _ (List.mem_append_right _ (List.mem_singleton.mpr rfl))
    · unfold validateInputs at hvalid ⊢
      repeat' split at hvalid
      all_goals first
        | cases hvalid
        | skip
      all_goals simp_all

/-- A run of lines 122 to 168 never panics, and it returns `nil` only after job construction
has accepted its argument list. -/
theorem constructAndSubmit_result (env : Env) (spec : JobSpec) (g : Globals)
    (done : List Effect) :
    (∃ err, (constructAndSubmit env spec g done).result = .ret (some err)) ∨
      ((constructAndSubmit env spec g done).result = .ret none ∧
        ∃ engineType verifierType jobSpec deal,
          env.ConstructDockerJob (constructArgs engineType verifierType spec g) =
            .ok (jobSpec, deal)) := by
  unfold constructAndSubmit
  repeat' split
  all_goals first
    | exact Or.inl ⟨_, rfl⟩
    | skip
  rename_i hc _ _ _
  exact Or.inr ⟨rfl, _, _, _, _, hc⟩

/-- C5, as stated, fails: for the job file `job.json` whose one input is the URL download input
with the URL `ftp://x` and the path `/in`, the validation of the inputs returns no error and
leaves `ftp://x:/in` in `jobInputUrls`, and `job.ConstructDockerJob` is called with that list
(here job construction is the one that rejects, and the run ends with its error). -/
theorem apply_ftp_input_reaches_construction :
    checkInputs
        (exampleEnv ".json" (exampleSpec [exampleInput "urldownload" "" "ftp://x" "/in"] [])
          constructNone)
        (exampleSpec [exampleInput "urldownload" "" "ftp://x" "/in"] [])
        (Globals.atStart "job.json" 1 []) = ((["ftp://x:/in"], []), none) ∧
    (RunE
        (exampleEnv ".json" (exampleSpec [exampleInput "urldownload" "" "ftp://x" "/in"] [])
          constructNone)
        (Globals.atStart "job.json" 1 [])).trace =
      [.JSONUnmarshal [],
       .ConstructDockerJob
        { engineType := 1, verifierType := 1, cpu := "", memory := "", gpu := "",
          inputUrls := ["ftp://x:/in"], inputVolumes := [],
          outputVolumes := ["outputs:/outputs"], env := [], entrypoint := ["echo", "hi"],
          image := "ubuntu", concurrency := 1, labels := [], workingDir := "",
          doNotTrack := false }] ∧
    (RunE
        (exampleEnv ".json" (exampleSpec [exampleInput "urldownload" "" "ftp://x" "/in"] [])
          constructNone)
        (Globals.atStart "job.json" 1 [])).result =
      .ret (some (.collaborator "protocol scheme in URL not supported")) := by
  refine ⟨rfl, rfl, rfl⟩

/-- C5, amended: for a job file that is decoded and has the URL download input with the URL
`ftp://x` and the path `/in`, that input meets the validation of the inputs; when the whole
validation passes and the engine, the verifier and the working directory are accepted, job
construction is called with `ftp://x:/in` among its input URLs; a submission is only ever made
of what job construction returned for an argument list with `ftp://x:/in` among its input URLs;
so when job construction rejects each such list, `apply` returns an error and submits
nothing. -/
theorem apply_ftp_input (env : Env) (g g1 : Globals) (done : List Effect) (spec : JobSpec)
    (input : StorageSpec)
    (hdecode : decodeJobFile env g = .ok (g1, done)) (hspec : g1.jobspec = some spec)
    (hmem : input ∈ spec.Inputs)
    (hengine : env.ParseStorageSourceType input.EngineName = .ok .URLDownload)
    (hurl : input.URL = "ftp://x") (hpath : input.Path = "/in") :
    InputOK env.ParseStorageSourceType input ∧
    ((checkInputs env spec g1).2 = none →
      ∀ engineType verifierType,
        env.ParseEngineType spec.EngineName = .ok engineType →
        env.ParseVerifierType spec.VerifierName = .ok verifierType →
        checkWorkingDir env g = none →
        ∃ args, Effect.ConstructDockerJob args ∈ (RunE env g).trace ∧
          "ftp://x:/in" ∈ args.inputUrls) ∧
    (∀ jobSpec deal, Effect.Submit jobSpec deal ∈ (RunE env g).trace →
      ∃ args, "ftp://x:/in" ∈ args.inputUrls ∧
        env.ConstructDockerJob args = .ok (jobSpec, deal)) ∧
    ((∀ args, "ftp://x:/in" ∈ args.inputUrls → ∃ err, env.ConstructDockerJob args = .error err) →
      (∃ err, (RunE env g).result = .ret (some err)) ∧
      ∀ jobSpec deal, Effect.Submit jobSpec deal ∉ (RunE env g).trace) := by
  have hsame := (Globals.sameButJobspec_iff g g1).mp (decodeJobFile_ok hdecode).1
  have hdone := (decodeJobFile_ok hdecode).2
  have hok : InputOK env.ParseStorageSourceType input := by
    refine ⟨?_, Or.inr ⟨hengine, ?_⟩⟩
    · rw [hpath]; decide
    · rw [hurl]; decide
  -- the entry is among the input URLs once the validation has passed
  have hentry : (checkInputs env spec g1).2 = none →
      "ftp://x:/in" ∈ (checkInputs env spec g1).1.1 := by
    intro hvalid
    rw [checkInputs_eq] at hvalid ⊢
    have := validateInputs_url_mem _ _ _ _ input hmem hengine hvalid
    rw [hurl, hpath] at this
    exact this
  -- a submission comes from an accepted argument list that holds the entry
  have hsubmit : ∀ jobSpec deal, Effect.Submit jobSpec deal ∈ (RunE env g).trace →
      ∃ args, "ftp://x:/in" ∈ args.inputUrls ∧
        env.ConstructDockerJob args = .ok (jobSpec, deal) := by
    intro jobSpec deal hsub
    cases hc : (checkInputs env spec g1).2 with
    | some err =>
      rw [(RunE_of_invalid hdecode hspec hc).2] at hsub
      have := hdone _ hsub
      simp [Effect.isDecode] at this
    | none =>
      rw [RunE_of_valid hdecode hspec hc] at hsub
      rcases constructAndSubmit_trace _ _ _ _ _ hsub with
        h | ⟨_, h⟩ | ⟨_, _, h⟩ | ⟨engineType, verifierType, jobSpec1, deal1, h, hcons⟩
      · have := hdone _ h
        simp [Effect.isDecode] at this
      · cases h
      · cases h
      · cases h
        exact ⟨_, hentry hc, hcons⟩
  refine ⟨hok, ?_, hsubmit, ?_⟩
  · intro hvalid engineType verifierType he hv hdir
    rw [RunE_of_valid hdecode hspec hvalid]
    refine ⟨_, constructAndSubmit_calls env spec _ done engineType verifierType he hv ?_,
      hentry hvalid⟩
    rw [← hdir]
    exact checkWorkingDir_congr env g _ hsame.2.2.2.2.2.1
  · intro hreject
    constructor
    · cases hc : (checkInputs env spec g1).2 with
      | some err => exact ⟨err, (RunE_of_invalid hdecode hspec hc).1⟩
      | none =>
        rw [RunE_of_valid hdecode hspec hc]
        rcases constructAndSubmit_result env spec
          { g1 with
            jobInputUrls := (checkInputs env spec g1).1.1
            jobInputVolumes := (checkInputs env spec g1).1.2
            jobOutputVolumes := gatherOutputs spec g1.jobOutputVolumes } done with
          h | ⟨_, engineType, verifierType, jobSpec, deal, hcons⟩
        · exact h
        · obtain ⟨err, herr⟩ := hreject _ (show "ftp://x:/in" ∈
            (constructArgs engineType verifierType spec
              { g1 with
                jobInputUrls := (checkInputs env spec g1).1.1
                jobInputVolumes := (checkInputs env spec g1).1.2
                jobOutputVolumes := gatherOutputs spec g1.jobOutputVolumes }).inputUrls from
            hentry hc)
          rw [herr] at hcons
          cases hcons
    · intro jobSpec deal hsub
      obtain ⟨args, hin, hcons⟩ := hsubmit jobSpec deal hsub
      obtain ⟨err, herr⟩ := hreject args hin
      rw [herr] at hcons
      cases hcons

/-- C5 amended, at the job file `job.json` whose one input is the URL download input with the
URL `ftp://x` and the path `/in`, with a job construction that accepts: the input meets the
validation. -/
theorem apply_ftp_input_witness :
    InputOK
      (exampleEnv ".json" (exampleSpec [exampleInput "urldownload" "" "ftp://x" "/in"] [])
        (constructAny (exampleSpec [] []))).ParseStorageSourceType
      (exampleInput "urldownload" "" "ftp://x" "/in") :=
  (apply_ftp_input
    (exampleEnv ".json" (exampleSpec [exampleInput "urldownload" "" "ftp://x" "/in"] [])
      (constructAny (exampleSpec [] [])))
    (Globals.atStart "job.json" 1 [])
    { Globals.atStart "job.json" 1 [] with
      jobspec := some (exampleSpec [exampleInput "urldownload" "" "ftp://x" "/in"] []) }
    [.JSONUnmarshal []]
    (exampleSpec [exampleInput "urldownload" "" "ftp://x" "/in"] [])
    (exampleInput "urldownload" "" "ftp://x" "/in")
    rfl rfl (List.mem_singleton.mpr rfl) rfl rfl rfl).1

/-- The steps after the decoding stage call no decoder. -/
theorem constructAndSubmit_trace_decode (env : Env) (spec : JobSpec) (g : Globals)
    (done : List Effect) (e : Effect) (he : e.isDecode = true) :
    e ∈ (constructAndSubmit env spec g done).trace ↔ e ∈ done := by
  constructor
  · intro h
    rcases constructAndSubmit_trace _ _ _ _ _ h with h | ⟨_, h⟩ | ⟨_, _, h⟩ | ⟨_, _, _, _, h, _⟩
    · exact h
    · subst h; simp [Effect.isDecode] at he
    · subst h; simp [Effect.isDecode] at he
    · subst h; simp [Effect.isDecode] at he
  · intro h
    unfold constructAndSubmit
    repeat' split
    all_goals simp [h]

theorem validateAndSubmit_trace_decode (env : Env) (g : Globals)
    (done : List Effect) (e : Effect) (he : e.isDecode = true) :
    e ∈ (validateAndSubmit env g done).trace ↔ e ∈ done := by
  unfold validateAndSubmit
  split
  · rfl
  · dsimp only
    split
    · rfl
    · exact constructAndSubmit_trace_decode _ _ _ _ _ he

/-- C8: once the file is opened and read, the JSON decoder is called (with the bytes of the
file) exactly when the extension of the file name is `.json`, and the YAML decoder exactly when
it is `.yaml` or `.yml`; an error of the decoder chosen is the error `apply` returns, and the
run then consists of that one call of the decoder: no job is constructed or submitted. -/
theorem apply_parser_selection (env : Env) (g : Globals) (fileContent : Nat)
    (bytes : List Nat)
    (hopen : env.Open g.filename = .ok fileContent)
    (hread : env.ReadAll fileContent = .ok bytes) :
    (∀ b, Effect.JSONUnmarshal b ∈ (RunE env g).trace ↔
        (b = bytes ∧ env.Ext g.filename = ".json")) ∧
    (∀ b, Effect.YAMLUnmarshal b ∈ (RunE env g).trace ↔
        (b = bytes ∧ (env.Ext g.filename = ".yaml" ∨ env.Ext g.filename = ".yml"))) ∧
    (∀ err, env.Ext g.filename = ".json" →
        (env.JSONUnmarshal bytes g.jobspec).2 = some err →
        (RunE env g).result = .ret (some (.collaborator err)) ∧
        (RunE env g).trace = [.JSONUnmarshal bytes]) ∧
    (∀ err, (env.Ext g.filename = ".yaml" ∨ env.Ext g.filename = ".yml") →
        (env.YAMLUnmarshal bytes g.jobspec).2 = some err →
        (RunE env g).result = .ret (some (.collaborator err)) ∧
        (RunE env g).trace = [.YAMLUnmarshal bytes]) := by
  have hjy : env.Ext g.filename = ".json" →
      ¬ (env.Ext g.filename = ".yaml" ∨ env.Ext g.filename = ".yml") := by
    intro h
    rw [h]
    decide
  by_cases hj : env.Ext g.filename = ".json"
  · have hny := hjy hj
    cases hd : (env.JSONUnmarshal bytes g.jobspec).2 with
    | some err =>
      have hrun : RunE env g = ⟨.ret (some (.collaborator err)),
          { g with jobspec := (env.JSONUnmarshal bytes g.jobspec).1 },
          [.JSONUnmarshal bytes]⟩ := by
        simp [RunE, decodeJobFile, decodeJSON, hopen, hread, hj, hd]
      rw [hrun]
      refine ⟨?_, ?_, ?_, ?_⟩
      · intro b; simp [hj]
      · intro b; simp [hny]
      · intro err1 _ h1; cases h1; exact ⟨rfl, rfl⟩
      · intro err1 h1; exact absurd h1 hny
    | none =>
      have hrun : RunE env g = validateAndSubmit env
          { g with jobspec := (env.JSONUnmarshal bytes g.jobspec).1 }
          [.JSONUnmarshal bytes] := by
        simp [RunE, decodeJobFile, decodeJSON, decodeYAML, hopen, hread, hj, hd]
      rw [hrun]
      refine ⟨?_, ?_, ?_, ?_⟩
      · intro b
        rw [validateAndSubmit_trace_decode _ _ _ (.JSONUnmarshal b) rfl]
        simp [hj]
      · intro b
        rw [validateAndSubmit_trace_decode _ _ _ (.YAMLUnmarshal b) rfl]
        simp [hny]
      · intro err1 _ h1; cases h1
      · intro err1 h1; exact absurd h1 hny
  · by_cases hy : env.Ext g.filename = ".yaml" ∨ env.Ext g.filename = ".yml"
    · cases hd : (env.YAMLUnmarshal bytes g.jobspec).2 with
      | some err =>
        have hrun : RunE env g = ⟨.ret (some (.collaborator err)),
            { g with jobspec := (env.YAMLUnmarshal bytes g.jobspec).1 },
            [.YAMLUnmarshal bytes]⟩ := by
          simp [RunE, decodeJobFile, decodeJSON, decodeYAML, hopen, hread, hj, hy, hd]
        rw [hrun]
        refine ⟨?_, ?_, ?_, ?_⟩
        · intro b; simp [hj]
        · intro b; simp [hy]
        · intro err1 h1; exact absurd h1 hj
        · intro err1 _ h1; cases h1; exact ⟨rfl, rfl⟩
      | none =>
        have hrun : RunE env g = validateAndSubmit env
            { g with jobspec := (env.YAMLUnmarshal bytes g.jobspec).1 }
            [.YAMLUnmarshal bytes] := by
          simp [RunE, decodeJobFile, decodeJSON, decodeYAML, hopen, hread, hj, hy, hd]
        rw [hrun]
        refine ⟨?_, ?_, ?_, ?_⟩
        · intro b
          rw [validateAndSubmit_trace_decode _ _ _ (.JSONUnmarshal b) rfl]
          simp [hj]
        · intro b
          rw [validateAndSubmit_trace_decode _ _ _ (.YAMLUnmarshal b) rfl]
          simp [hy]
        · intro err1 h1; exact absurd h1 hj
        · intro err1 _ h1; cases h1
    · have hrun : RunE env g = validateAndSubmit env g [] := by
        simp [RunE, decodeJobFile, decodeJSON, decodeYAML, hopen, hread, hj, hy]
      rw [hrun]
      refine ⟨?_, ?_, ?_, ?_⟩
      · intro b
        rw [validateAndSubmit_trace_decode _ _ _ (.JSONUnmarshal b) rfl]
        simp [hj]
      · intro b
        rw [validateAndSubmit_trace_decode _ _ _ (.YAMLUnmarshal b) rfl]
        simp [hy]
      · intro err1 h1; exact absurd h1 hj
      · intro err1 h1; exact absurd h1 hy

/-- C8, at a file `job.yml`: the YAML decoder is called with the bytes of the file. -/
theorem apply_parser_selection_witness :
    Effect.YAMLUnmarshal [] ∈
      (RunE (exampleEnv ".yml" (exampleSpec [] []) (constructAny (exampleSpec [] [])))
        (Globals.atStart "job.yml" 1 [])).trace :=
  ((apply_parser_selection
    (exampleEnv ".yml" (exampleSpec [] []) (constructAny (exampleSpec [] [])))
    (Globals.atStart "job.yml" 1 []) 3 [] rfl rfl).2.1 []).mpr ⟨rfl, Or.inr rfl⟩

end Apply

end Bacalhau

/-! ## Properties of `describe` -/

namespace Bacalhau

namespace Describe

/-- C3, as stated, fails: when the API client reports that there is no job with the id `abc`
(`ok = false`, no error), `describe` prints a line and returns `nil`, not an error. -/
theorem describe_not_found_returns_nil :
    RunE exampleEnv "abc" =
      ⟨.ret none, [.Get "abc", .Printf "No job ID found matching ID: abc"]⟩ := by
  rfl

/-- C3, amended: for each job id for which `Get` of the API client reports that no job was
found (`ok = false`, no error), `describe` asks the API client nothing more, prints
`No job ID found matching ID: ` followed by the id, and returns `nil`. -/
theorem describe_not_found {σ : Type} (env : Env σ) (inputJobID : String)
    (hok : (env.Get inputJobID).2.1 = false) (herr : (env.Get inputJobID).2.2 = none) :
    RunE env inputJobID =
      ⟨.ret none,
        [.Get inputJobID, .Printf ("No job ID found matching ID: " ++ inputJobID)]⟩ := by
  unfold RunE
  rcases hget : env.Get inputJobID with ⟨job, ok, err⟩
  rw [hget] at hok herr
  dsimp only at hok herr
  subst hok herr
  rfl

/-- C3 amended, at the id `abc` and a client that knows no job. -/
theorem describe_not_found_witness :
    (RunE exampleEnv "abc").outcome = .ret none :=
  congrArg Run.outcome (describe_not_found exampleEnv "abc" rfl rfl)

end Describe

/-! ## Properties of `serve` -/

namespace Serve

/-- C4 fails on the code: whatever the flags are, and so also for the value `local` of
`--job-selection-data-locality` (the default of the flag), the policy that
`getJobSelectionConfig` returns has the locality `Anywhere`, not `Local`. -/
theorem getJobSelectionConfig_locality (g : Globals) :
    (getJobSelectionConfig g).Locality = JobSelectionDataLocality.Anywhere ∧
    (getJobSelectionConfig { g with jobSelectionDataLocality := "local" }).Locality =
      JobSelectionDataLocality.Anywhere ∧
    (Globals.defaults g.apiPort).jobSelectionDataLocality = "local" := by
  refine ⟨?_, ?_, rfl⟩
  · unfold getJobSelectionConfig
    dsimp only
    split <;> rfl
  · rfl

theorem startNode_datastore (env : Env) (g : Globals) :
    Effect.NewInMemoryDatastore ∈ (startNode env g).2 := by
  unfold startNode
  repeat' split
  all_goals try simp
  generalize env.NewComputeNode _ = r
  cases r <;> simp

/-- C7: when `--ipfs-connect` is not empty, `serve` returns the error
`job-selection-data-locality must be either 'local' or 'anywhere'` with nothing done (no clean
up manager, datastore, transport or node is made) for each value of
`--job-selection-data-locality` other than `local` and `anywhere`; and for these two values the
run gets past the check: it makes the clean up manager and goes on to make the datastore. -/
theorem serve_locality_check (env : Env) (g : Globals) (hipfs : g.ipfsConnect ≠ "") :
    ((g.jobSelectionDataLocality ≠ "local" ∧ g.jobSelectionDataLocality ≠ "anywhere") →
      RunE env g =
        ⟨.ret (some "job-selection-data-locality must be either 'local' or 'anywhere'"), []⟩) ∧
    ((g.jobSelectionDataLocality = "local" ∨ g.jobSelectionDataLocality = "anywhere") →
      (RunE env g).outcome = (startNode env g).1 ∧
      (RunE env g).trace =
        [.NewCleanupManager, .RegisterCallback "system.CleanupTracer",
         .LogDebug ("libp2p connecting to: " ++ ", ".intercalate (peers g))]
          ++ (startNode env g).2 ++ [.Cleanup] ∧
      Effect.NewInMemoryDatastore ∈ (RunE env g).trace) := by
  constructor
  · intro h
    unfold RunE
    rw [if_neg hipfs, if_pos h]
  · intro h
    have hn : ¬ (g.jobSelectionDataLocality ≠ "local" ∧
        g.jobSelectionDataLocality ≠ "anywhere") := by
      rintro ⟨h1, h2⟩
      rcases h with h | h
      · exact h1 h
      · exact h2 h
    have hrun : RunE env g = ⟨(startNode env g).1,
        [.NewCleanupManager, .RegisterCallback "system.CleanupTracer",
         .LogDebug ("libp2p connecting to: " ++ ", ".intercalate (peers g))]
          ++ (startNode env g).2 ++ [.Cleanup]⟩ := by
      unfold RunE
      rw [if_neg hipfs, if_neg hn]
    rw [hrun]
    refine ⟨rfl, rfl, ?_⟩
    simp [startNode_datastore]

/-- C7, at the flags `--ipfs-connect /ip4/127.0.0.1/tcp/5001` and
`--job-selection-data-locality nearby`. -/
theorem serve_locality_check_witness :
    RunE exampleEnv
      { Globals.defaults 1234 with
        ipfsConnect := "/ip4/127.0.0.1/tcp/5001", jobSelectionDataLocality := "nearby" } =
      ⟨.ret (some "job-selection-data-locality must be either 'local' or 'anywhere'"), []⟩ :=
  (serve_locality_check exampleEnv
    { Globals.defaults 1234 with
      ipfsConnect := "/ip4/127.0.0.1/tcp/5001", jobSelectionDataLocality := "nearby" }
    (by decide)).1 ⟨by decide, by decide⟩

end Serve

/-! ## Properties of the URL download storage driver -/

namespace URLDownload

theorem IsURLSupported_true_iff (env : Env) (rawURL : String) :
    IsURLSupported env rawURL = (true, none) ↔
      ∃ parsedURL, env.ParseRequestURI rawURL = .ok parsedURL ∧
        (parsedURL.Scheme = "http" ∨ parsedURL.Scheme = "https") := by
  unfold IsURLSupported
  cases hp : env.ParseRequestURI rawURL with
  | error err => simp
  | ok parsedURL =>
    by_cases hs : parsedURL.Scheme = "http" ∨ parsedURL.Scheme = "https"
    · simp [hs]
    · simp [hs]

theorem IsURLSupported_cases (env : Env) (rawURL : String) :
    IsURLSupported env rawURL = (true, none) ∨
      ∃ err, IsURLSupported env rawURL = (false, some err) := by
  unfold IsURLSupported
  cases hp : env.ParseRequestURI rawURL with
  | error err => exact Or.inr ⟨err, rfl⟩
  | ok parsedURL =>
    by_cases hs : parsedURL.Scheme = "http" ∨ parsedURL.Scheme = "https"
    · left; simp [hs]
    · right; simp [hs]

/-- C6: `IsURLSupported` returns `(true, nil)` exactly when the string parses as a request URI
whose scheme is `http` or `https`; in each other case it returns `false` with an error, and
`PrepareStorage` for a specification with that URL returns that error and the empty volume,
with no directory made and no download issued. -/
theorem isURLSupported_spec (env : Env) (rawURL : String) :
    (IsURLSupported env rawURL = (true, none) ↔
      ∃ parsedURL, env.ParseRequestURI rawURL = .ok parsedURL ∧
        (parsedURL.Scheme = "http" ∨ parsedURL.Scheme = "https")) ∧
    (IsURLSupported env rawURL ≠ (true, none) →
      ∃ err, IsURLSupported env rawURL = (false, some err) ∧
        ∀ (sp : StorageProvider) (storageSpec : StorageSpec), storageSpec.URL = rawURL →
          PrepareStorage env sp storageSpec = ((StorageVolume.empty, some err), [])) := by
  refine ⟨IsURLSupported_true_iff env rawURL, ?_⟩
  intro hne
  rcases IsURLSupported_cases env rawURL with h | ⟨err, h⟩
  · exact absurd h hne
  · refine ⟨err, h, ?_⟩
    intro sp storageSpec hurl
    unfold PrepareStorage
    rw [hurl, h]

/-- C9: for each storage specification, `Explode` returns no error and a list of exactly one
specification, with the name, the path and the URL of the input and the URL download engine;
`Explode` of that one result gives the same list again. -/
theorem explode_single (sp : StorageProvider) (spec : StorageSpec) :
    ∃ result, Explode sp spec = ([result], none) ∧
      result.Name = spec.Name ∧ result.Path = spec.Path ∧ result.URL = spec.URL ∧
      result.Engine = StorageSourceType.URLDownload ∧
      Explode sp result = ([result], none) :=
  ⟨_, rfl, rfl, rfl, rfl, rfl, rfl⟩

/-- C10: when `PrepareStorage` succeeds, `ioutil.TempDir` has made a directory `tmpdir` under
`LocalDir`, and the volume is the bind volume with the target `Path` of the specification and
the source `tmpdir/file`; `CleanupStorage` for that volume runs the one command
`sudo rm -rf` on `filepath.Dir` of `tmpdir/file`.  So where `filepath.Dir` of `tmpdir/file` is
`tmpdir`, and `tmpdir` is not `LocalDir` itself, the directory removed is `tmpdir` and not
`LocalDir`. -/
theorem prepare_then_cleanup (env : Env) (sp : StorageProvider) (storageSpec : StorageSpec)
    (volume : StorageVolume) (done : List Effect)
    (hprepare : PrepareStorage env sp storageSpec = ((volume, none), done)) :
    ∃ tmpdir, env.TempDir sp.LocalDir "*" = .ok tmpdir ∧
      Effect.TempDir sp.LocalDir "*" ∈ done ∧
      Effect.Download (tmpdir ++ "/file") storageSpec.URL ∈ done ∧
      volume = { Type_ := .Bind, Source := tmpdir ++ "/file", Target := storageSpec.Path } ∧
      (CleanupStorage env sp storageSpec volume).2 =
        [.LogDebug ("Cleaning up: " ++ env.Dir (tmpdir ++ "/file")),
         .RunCommand "sudo" ["rm", "-rf", env.Dir (tmpdir ++ "/file")]] ∧
      (env.Dir (tmpdir ++ "/file") = tmpdir → tmpdir ≠ sp.LocalDir →
        (∀ command args, Effect.RunCommand command args ∈
            (CleanupStorage env sp storageSpec volume).2 →
          command = "sudo" ∧ args = ["rm", "-rf", tmpdir]) ∧
        Effect.RunCommand "sudo" ["rm", "-rf", tmpdir] ∈
          (CleanupStorage env sp storageSpec volume).2 ∧
        Effect.RunCommand "sudo" ["rm", "-rf", sp.LocalDir] ∉
          (CleanupStorage env sp storageSpec volume).2) := by
  unfold PrepareStorage at hprepare
  split at hprepare
  · cases hprepare
  · split at hprepare
    · cases hprepare
    · rename_i tmpdir htmp
      dsimp only at hprepare
      split at hprepare
      · cases hprepare
      · cases hprepare
        refine ⟨tmpdir, htmp, by simp, by simp, rfl, rfl, ?_⟩
        intro hdir hne
        simp only [CleanupStorage, hdir]
        refine ⟨?_, by simp, ?_⟩
        · intro command args hmem
          simp at hmem
          exact hmem
        · simp
          exact fun h => hne h.symm

/-- C10, at a provider with the directory `/tmp/bacalhau-url1` and the URL
`http://example.com/data.csv` mounted at `/inputs/data.csv`: `PrepareStorage` succeeds with the
source `/tmp/bacalhau-url1/123/file`, `filepath.Dir` of it is `/tmp/bacalhau-url1/123`, which is
not the directory of the provider, and that is the directory removed. -/
theorem prepare_then_cleanup_witness :
    (PrepareStorage exampleEnv ⟨"/tmp/bacalhau-url1"⟩
        (exampleSpec "http://example.com/data.csv" "/inputs/data.csv") =
      (({ Type_ := .Bind, Source := "/tmp/bacalhau-url1/123/file",
          Target := "/inputs/data.csv" }, none),
        [.TempDir "/tmp/bacalhau-url1" "*", .SetTimeout 300,
         .Download "/tmp/bacalhau-url1/123/file" "http://example.com/data.csv"])) ∧
    exampleEnv.Dir ("/tmp/bacalhau-url1/123" ++ "/file") = "/tmp/bacalhau-url1/123" ∧
    "/tmp/bacalhau-url1/123" ≠ "/tmp/bacalhau-url1" ∧
    ∃ tmpdir, exampleEnv.TempDir "/tmp/bacalhau-url1" "*" = .ok tmpdir ∧
      (CleanupStorage exampleEnv ⟨"/tmp/bacalhau-url1"⟩
        (exampleSpec "http://example.com/data.csv" "/inputs/data.csv")
        { Type_ := .Bind, Source := "/tmp/bacalhau-url1/123/file",
          Target := "/inputs/data.csv" }).2 =
        [.LogDebug ("Cleaning up: " ++ exampleEnv.Dir (tmpdir ++ "/file")),
         .RunCommand "sudo" ["rm", "-rf", exampleEnv.Dir (tmpdir ++ "/file")]] :=
  ⟨by decide, by decide, by decide,
    (prepare_then_cleanup exampleEnv ⟨"/tmp/bacalhau-url1"⟩
      (exampleSpec "http://example.com/data.csv" "/inputs/data.csv")
      { Type_ := .Bind, Source := "/tmp/bacalhau-url1/123/file", Target := "/inputs/data.csv" }
      [.TempDir "/tmp/bacalhau-url1" "*", .SetTimeout 300,
       .Download "/tmp/bacalhau-url1/123/file" "http://example.com/data.csv"]
      (by decide)).imp (fun _ h => ⟨h.1, h.2.2.2.2.1⟩)⟩

end URLDownload

end Bacalhau

/-! ## Properties of the peers of `serve` and of the ipfs verifier -/

namespace Bacalhau

namespace Serve

theorem startNode_transport (env : Env) (g : Globals) :
    (∀ port peerList, Effect.NewTransport port peerList ∈ (startNode env g).2 →
      port = g.hostPort ∧ peerList = peers g) ∧
    (env.NewInMemoryDatastore = none →
      Effect.NewTransport g.hostPort (peers g) ∈ (startNode env g).2) := by
  unfold startNode
  repeat' split
  all_goals try simp_all
  generalize env.NewComputeNode _ = r
  cases r <;> simp

/-- C11: the list of peers `serve` connects to is the default bootstrap addresses when `--peer`
is empty, the empty list when it is `none`, and the list of that one value otherwise; each call
of `libp2p.NewTransport` in a run is made with this list, and the call is made once the flags
are accepted and the datastore is there. -/
theorem serve_peers (env : Env) (g : Globals) :
    (g.peerConnect = "" → peers g = DefaultBootstrapAddresses) ∧
    (g.peerConnect = "none" → peers g = []) ∧
    (g.peerConnect ≠ "" → g.peerConnect ≠ "none" → peers g = [g.peerConnect]) ∧
    (∀ port peerList, Effect.NewTransport port peerList ∈ (RunE env g).trace →
      peerList = peers g) ∧
    (g.ipfsConnect ≠ "" →
      (g.jobSelectionDataLocality = "local" ∨ g.jobSelectionDataLocality = "anywhere") →
      env.NewInMemoryDatastore = none →
      Effect.NewTransport g.hostPort (peers g) ∈ (RunE env g).trace) := by
  refine ⟨?_, ?_, ?_, ?_, ?_⟩
  · intro h
    unfold peers
    rw [h]
    rfl
  · intro h
    unfold peers
    rw [if_pos h]
  · intro h1 h2
    unfold peers
    rw [if_neg h2, if_pos h1]
  · intro port peerList hmem
    unfold RunE at hmem
    split at hmem
    · simp at hmem
    · split at hmem
      · simp at hmem
      · simp only [List.mem_append, List.mem_cons, List.mem_singleton, List.not_mem_nil,
          reduceCtorEq, false_or, or_false] at hmem
        exact ((startNode_transport env g).1 port peerList hmem).2
  · intro hipfs hloc hds
    have hn : ¬ (g.jobSelectionDataLocality ≠ "local" ∧
        g.jobSelectionDataLocality ≠ "anywhere") := by
      rintro ⟨h1, h2⟩
      rcases hloc with h | h
      · exact h1 h
      · exact h2 h
    unfold RunE
    rw [if_neg hipfs, if_neg hn]
    simp [(startNode_transport env g).2 hds]

end Serve

namespace Verifier

theorem appendResults_eq (shardResults : List ShardResult) (results : List StorageSpec) :
    appendResults shardResults results =
      results ++ shardResults.map (fun shardResult =>
        { Name := shardName shardResult.ShardIndex
          Path := shardName shardResult.ShardIndex
          Engine := StorageSourceType.IPFS
          Cid := shardResult.ResultsID
          EngineName := ""
          URL := "" }) := by
  induction shardResults generalizing results with
  | nil => simp [appendResults]
  | cons shardResult rest ih => simp [appendResults, ih]

/-- C12: for each list of shard results that the state resolver returns for a job,
`GetJobResultSet` returns, with no error, a list of the same length and order whose entry at
each place is the IPFS storage specification with the results id of the shard result at that
place as its cid, and `shard` followed by the shard index of that result as its name and as
its path. -/
theorem getJobResultSet_results (env : Env) (jobID : String) (shardResults : List ShardResult)
    (hresults : env.GetResults jobID = .ok shardResults) :
    (GetJobResultSet env jobID).2 = none ∧
    (GetJobResultSet env jobID).1.length = shardResults.length ∧
    (∀ (i : Nat) (shardResult : ShardResult), shardResults[i]? = some shardResult →
      ∃ spec, (GetJobResultSet env jobID).1[i]? = some spec ∧
        spec.Engine = StorageSourceType.IPFS ∧ spec.Cid = shardResult.ResultsID ∧
        spec.Name = "shard" ++ toString shardResult.ShardIndex ∧
        spec.Path = "shard" ++ toString shardResult.ShardIndex) := by
  have hrun : GetJobResultSet env jobID =
      (shardResults.map (fun shardResult =>
        { Name := shardName shardResult.ShardIndex
          Path := shardName shardResult.ShardIndex
          Engine := StorageSourceType.IPFS
          Cid := shardResult.ResultsID
          EngineName := ""
          URL := "" }), none) := by
    unfold GetJobResultSet
    rw [hresults]
    simp [appendResults_eq]
  rw [hrun]
  refine ⟨rfl, by simp, ?_⟩
  intro i shardResult hi
  rw [List.getElem?_map, hi]
  exact ⟨_, rfl, rfl, rfl, rfl, rfl⟩

/-- C12, at the job `job-1` with results for the shards 0 and 2. -/
theorem getJobResultSet_results_witness :
    (GetJobResultSet exampleEnv "job-1").1.map (fun spec => (spec.Name, spec.Cid)) =
      [("shard0", "QmFirst"), ("shard2", "QmThird")] ∧
    (GetJobResultSet exampleEnv "job-1").1.length = 2 :=
  ⟨by decide,
    (getJobResultSet_results exampleEnv "job-1" [⟨0, "QmFirst"⟩, ⟨2, "QmThird"⟩] rfl).2.1⟩

/-- C14: `GetJobResultSet` returns no error for any job id; when `GetResults` of the state
resolver fails, it returns the empty list and `nil`, which is also what it returns for a job
whose list of results is empty. -/
theorem getJobResultSet_no_error (env : Env) (jobID : String) :
    (GetJobResultSet env jobID).2 = none ∧
    (∀ err, env.GetResults jobID = .error err → GetJobResultSet env jobID = ([], none)) ∧
    (env.GetResults jobID = .ok [] → GetJobResultSet env jobID = ([], none)) := by
  unfold GetJobResultSet
  cases h : env.GetResults jobID with
  | error err => simp
  | ok shardResults =>
    refine ⟨rfl, by simp, ?_⟩
    intro h1
    cases h1
    rfl

end Verifier

end Bacalhau

/-! ## Properties of the shards in the description of `describe` -/

namespace Bacalhau

namespace Describe

theorem ShardMap.lookup_insert (m : ShardMap) (key : Int) (value : shardStateDescription)
    (k : Int) :
    (ShardMap.insert m key value).lookup k = if k = key then some value else m.lookup k := by
  induction m with
  | nil =>
    by_cases h : k = key
    · simp [ShardMap.insert, ShardMap.lookup, h]
    · have h1 : ¬ key = k := fun e => h e.symm
      simp [ShardMap.insert, ShardMap.lookup, h, h1]
  | cons entry rest ih =>
    unfold ShardMap.insert
    by_cases he : entry.1 = key
    · rw [if_pos he]
      by_cases h : k = key
      · simp [ShardMap.lookup, h]
      · have h1 : ¬ key = k := fun e => h e.symm
        have h2 : ¬ entry.1 = k := fun e => h (e.symm.trans he)
        simp [ShardMap.lookup, h, h1, h2]
    · rw [if_neg he]
      by_cases hk : entry.1 = k
      · have h : ¬ k = key := fun e => he (hk.trans e)
        simp [ShardMap.lookup, hk, h]
      · have ih1 := ih
        simp only [ShardMap.lookup] at ih1 ⊢
        rw [List.find?_cons_of_neg _ (by simpa using hk), ih1,
          List.find?_cons_of_neg _ (by simpa using hk)]

theorem ShardMap.keys_insert (m : ShardMap) (key : Int) (value : shardStateDescription) :
    (ShardMap.insert m key value).map Prod.fst =
      if key ∈ m.map Prod.fst then m.map Prod.fst else m.map Prod.fst ++ [key] := by
  induction m with
  | nil => simp [ShardMap.insert]
  | cons entry rest ih =>
    unfold ShardMap.insert
    by_cases he : entry.1 = key
    · simp [he]
    · have h1 : ¬ key = entry.1 := fun e => he e.symm
      rw [if_neg he, List.map_cons, ih]
      by_cases hm : key ∈ rest.map Prod.fst
      · have hm1 : key ∈ List.map Prod.fst (entry :: rest) := by
          rw [List.map_cons]; exact List.mem_cons_of_mem _ hm
        rw [if_pos hm, if_pos hm1, List.map_cons]
      · have hm1 : ¬ key ∈ List.map Prod.fst (entry :: rest) := by
          rw [List.map_cons, List.mem_cons]
          rintro (h | h)
          · exact h1 h
          · exact hm h
        rw [if_neg hm, if_neg hm1, List.map_cons, List.cons_append]

theorem ShardMap.lookup_eq_none_iff (m : ShardMap) (k : Int) :
    m.lookup k = none ↔ k ∉ m.map Prod.fst := by
  induction m with
  | nil => simp [ShardMap.lookup]
  | cons entry rest ih =>
    by_cases hk : entry.1 = k
    · simp [ShardMap.lookup, hk]
    · have h1 : ¬ k = entry.1 := fun e => hk e.symm
      simp only [ShardMap.lookup] at ih ⊢
      rw [List.find?_cons_of_neg _ (by simpa using hk), ih]
      simp [h1]

/-- One turn of the loop of lines 145 to 160. -/
theorem groupShards_cons (shardString : Int → String) (shard : JobShardState)
    (rest : List JobShardState) (m : ShardMap) :
    groupShards shardString (shard :: rest) m =
      groupShards shardString rest
        (m.insert shard.ShardIndex
          ⟨((m.lookup shard.ShardIndex).getD ⟨shard.ShardIndex, []⟩).ShardIndex,
            ((m.lookup shard.ShardIndex).getD ⟨shard.ShardIndex, []⟩).Nodes ++
              [describeNode shardString shard]⟩) := by
  rw [groupShards]
  cases h : m.lookup shard.ShardIndex <;> rfl

/-- What the map holds under a key after the loop: the entry it held before with the nodes of
the flattened states of that index appended, or a new entry with these nodes if there is
one. -/
theorem groupShards_lookup (shardString : Int → String) (flattened : List JobShardState)
    (m : ShardMap) (k : Int) :
    (groupShards shardString flattened m).lookup k =
      match m.lookup k with
      | some found =>
        some ⟨found.ShardIndex, found.Nodes ++
          (flattened.filter (fun shard => shard.ShardIndex = k)).map (describeNode shardString)⟩
      | none =>
        if flattened.filter (fun shard => shard.ShardIndex = k) = [] then none
        else some ⟨k,
          (flattened.filter (fun shard => shard.ShardIndex = k)).map (describeNode shardString)⟩ := by
  induction flattened generalizing m with
  | nil =>
    cases h : m.lookup k <;> simp [groupShards, h]
  | cons shard rest ih =>
    rw [groupShards_cons, ih, ShardMap.lookup_insert]
    by_cases hk : k = shard.ShardIndex
    · subst hk
      cases h : m.lookup shard.ShardIndex <;> simp
    · have hk1 : ¬ shard.ShardIndex = k := fun e => hk e.symm
      rw [if_neg hk, List.filter_cons_of_neg (by simpa using hk1)]

theorem groupShards_keys_nodup (shardString : Int → String) (flattened : List JobShardState)
    (m : ShardMap) (hm : (m.map Prod.fst).Nodup) :
    ((groupShards shardString flattened m).map Prod.fst).Nodup := by
  induction flattened generalizing m with
  | nil => exact hm
  | cons shard rest ih =>
    rw [groupShards_cons]
    apply ih
    rw [ShardMap.keys_insert]
    split
    · exact hm
    · rename_i hnot
      exact List.Nodup.append hm (List.nodup_singleton _) (by simpa using hnot)

/-- The map the loop builds from the empty map: under each index of a flattened state, that
index with the nodes of the flattened states of that index, in their order. -/
theorem groupShards_empty_lookup (shardString : Int → String)
    (flattened : List JobShardState) (k : Int) :
    (groupShards shardString flattened []).lookup k =
      if flattened.filter (fun shard => shard.ShardIndex = k) = [] then none
      else some ⟨k,
        (flattened.filter (fun shard => shard.ShardIndex = k)).map (describeNode shardString)⟩ := by
  rw [groupShards_lookup]
  rfl

theorem groupShards_empty_keys (shardString : Int → String)
    (flattened : List JobShardState) (k : Int) :
    k ∈ (groupShards shardString flattened []).map Prod.fst ↔
      ∃ shard ∈ flattened, shard.ShardIndex = k := by
  have h := ShardMap.lookup_eq_none_iff (groupShards shardString flattened []) k
  rw [groupShards_empty_lookup] at h
  by_cases hf : flattened.filter (fun shard => shard.ShardIndex = k) = []
  · rw [if_pos hf] at h
    have hnot := h.mp rfl
    constructor
    · intro hk; exact absurd hk hnot
    · rintro ⟨shard, hmem, hidx⟩
      have : shard ∈ flattened.filter (fun shard => shard.ShardIndex = k) :=
        List.mem_filter.mpr ⟨hmem, by simpa using hidx⟩
      rw [hf] at this
      cases this
  · rw [if_neg hf] at h
    constructor
    · intro _
      obtain ⟨shard, hshard⟩ := List.exists_mem_of_ne_nil _ hf
      have := List.mem_filter.mp hshard
      exact ⟨shard, this.1, by simpa using this.2⟩
    · intro _
      by_contra hk
      have := h.mpr hk
      cases this

theorem sum_indicator (ks : List Int) (k : Int) (hnodup : ks.Nodup) (hmem : k ∈ ks) :
    (ks.map (fun j => if k = j then 1 else 0)).sum = 1 := by
  induction ks with
  | nil => cases hmem
  | cons j rest ih =>
    rw [List.nodup_cons] at hnodup
    rw [List.map_cons, List.sum_cons]
    by_cases hj : k = j
    · subst hj
      have hzero : (rest.map (fun j => if k = j then 1 else 0)).sum = 0 := by
        apply List.sum_eq_zero
        intro x hx
        obtain ⟨j, hjmem, rfl⟩ := List.mem_map.mp hx
        have : ¬ k = j := fun e => hnodup.1 (e ▸ hjmem)
        simp [this]
      simp [hzero]
    · have hrest : k ∈ rest := by
        rcases List.mem_cons.mp hmem with h | h
        · exact absurd h hj
        · exact h
      simp [hj, ih hnodup.2 hrest]

/-- Over a list of keys without repetition that holds every shard index of the flattened
states, the numbers of states by key add up to the number of states. -/
theorem sum_filter_length (ks : List Int) (flattened : List JobShardState)
    (hnodup : ks.Nodup) (hall : ∀ shard ∈ flattened, shard.ShardIndex ∈ ks) :
    (ks.map (fun k =>
      (flattened.filter (fun shard => shard.ShardIndex = k)).length)).sum =
        flattened.length := by
  induction flattened with
  | nil => simp
  | cons shard rest ih =>
    have hrest : ∀ s ∈ rest, s.ShardIndex ∈ ks :=
      fun s hs => hall s (List.mem_cons_of_mem _ hs)
    have hsplit : ∀ k : Int,
        ((shard :: rest).filter (fun s => s.ShardIndex = k)).length =
          (if shard.ShardIndex = k then 1 else 0) +
            (rest.filter (fun s => s.ShardIndex = k)).length := by
      intro k
      by_cases hk : shard.ShardIndex = k
      · rw [List.filter_cons_of_pos (by simpa using hk), if_pos hk, List.length_cons]
        omega
      · rw [List.filter_cons_of_neg (by simpa using hk), if_neg hk]
        omega
    simp only [hsplit]
    rw [List.sum_map_add, ih hrest,
      sum_indicator ks shard.ShardIndex hnodup (hall shard (List.mem_cons_self _ _)),
      List.length_cons]
    omega

/-- C13: in the description that `describe` builds from a job state, when the run time walks
each key of the map once, the shard indexes of `Shards` are strictly ascending, they are the
shard indexes that occur in the flattened shard states and no other, the `Nodes` of each shard
are the entries for the flattened states of that shard index in their order, and the numbers of
nodes add up to the number of flattened states. -/
theorem describe_shards {σ : Type} (env : Env σ) (job : Job) (state : σ)
    (events : List JobEvent) (localEvents : List JobLocalEvent)
    (hrange : ∀ keys : List Int, (env.MapRange keys).Perm keys) :
    (((buildDescription env job state events localEvents).Shards.map
        (fun shard => shard.ShardIndex)).Sorted (fun a b => a < b)) ∧
    (∀ k, k ∈ (buildDescription env job state events localEvents).Shards.map
        (fun shard => shard.ShardIndex) ↔
      ∃ flat ∈ env.FlattenShardStates state, flat.ShardIndex = k) ∧
    (∀ shard ∈ (buildDescription env job state events localEvents).Shards,
      shard.Nodes =
        ((env.FlattenShardStates state).filter
          (fun flat => flat.ShardIndex = shard.ShardIndex)).map
            (describeNode env.ShardStateString)) ∧
    ((buildDescription env job state events localEvents).Shards.map
        (fun shard => shard.Nodes.length)).sum = (env.FlattenShardStates state).length := by
  have hshards : (buildDescription env job state events localEvents).Shards =
      describeShards env.ShardStateString env.MapRange (env.FlattenShardStates state) := rfl
  rw [hshards]
  generalize env.FlattenShardStates state = flattened
  generalize hM : groupShards env.ShardStateString flattened [] = M
  generalize hsorted :
    (env.MapRange (M.map (fun entry => entry.1))).insertionSort (fun a b => a ≤ b) = sorted
  have hdesc : describeShards env.ShardStateString env.MapRange flattened =
      sorted.map (fun shardIndex => M.get shardIndex) := by
    unfold describeShards
    rw [hM]
    dsimp only
    rw [hsorted]
  rw [hdesc]
  -- the sorted keys are the keys of the map, each once
  have hperm : sorted.Perm (M.map Prod.fst) := by
    rw [← hsorted]
    exact (List.perm_insertionSort _ _).trans (hrange _)
  have hkeys : (M.map Prod.fst).Nodup := by
    rw [← hM]
    exact groupShards_keys_nodup _ _ [] List.nodup_nil
  have hnodup : sorted.Nodup := hperm.nodup_iff.mpr hkeys
  have hmem : ∀ k, k ∈ sorted ↔ ∃ flat ∈ flattened, flat.ShardIndex = k := by
    intro k
    rw [hperm.mem_iff, ← hM]
    exact groupShards_empty_keys _ _ k
  have hle : sorted.Sorted (fun a b => a ≤ b) := by
    rw [← hsorted]
    exact List.sorted_insertionSort _ _
  -- what the map holds under a sorted key
  have hget : ∀ k ∈ sorted, M.get k =
      ⟨k, (flattened.filter (fun flat => flat.ShardIndex = k)).map
        (describeNode env.ShardStateString)⟩ := by
    intro k hk
    obtain ⟨flat, hflat, hidx⟩ := (hmem k).mp hk
    have hne : flattened.filter (fun flat => flat.ShardIndex = k) ≠ [] := by
      intro hnil
      have : flat ∈ flattened.filter (fun flat => flat.ShardIndex = k) :=
        List.mem_filter.mpr ⟨hflat, by simpa using hidx⟩
      rw [hnil] at this
      cases this
    unfold ShardMap.get
    rw [← hM, groupShards_empty_lookup, if_neg hne]
    rfl
  have hindexes : (sorted.map (fun shardIndex => M.get shardIndex)).map
      (fun shard => shard.ShardIndex) = sorted := by
    rw [List.map_map]
    conv_rhs => rw [← List.map_id sorted]
    apply List.map_congr_left
    intro k hk
    simp [hget k hk]
  refine ⟨?_, ?_, ?_, ?_⟩
  · rw [hindexes]
    exact hle.lt_of_le hnodup
  · intro k
    rw [hindexes]
    exact hmem k
  · intro shard hshard
    obtain ⟨k, hk, rfl⟩ := List.mem_map.mp hshard
    rw [hget k hk]
  · rw [List.map_map]
    have hcongr : sorted.map ((fun shard : shardStateDescription => shard.Nodes.length) ∘
        (fun shardIndex => M.get shardIndex)) =
        sorted.map (fun k =>
          (flattened.filter (fun flat => flat.ShardIndex = k)).length) := by
      apply List.map_congr_left
      intro k hk
      simp [hget k hk]
    rw [hcongr]
    exact sum_filter_length sorted flattened hnodup
      (fun flat hflat => (hmem flat.ShardIndex).mpr ⟨flat, hflat, rfl⟩)

/-- C13, at a job state with four flattened shard states, for the shards 2, 0, 2 and 1, and a
run time that walks the map from the last key to the first. -/
theorem describe_shards_witness :
    (buildDescription shardsEnv (exampleEnv.Get "job-1").1
        [exampleShard "QmA" 2 "r1", exampleShard "QmB" 0 "r2", exampleShard "QmC" 2 "r3",
         exampleShard "QmD" 1 "r4"] [] []).Shards.map
      (fun shard => (shard.ShardIndex, shard.Nodes.map (fun node => node.Node))) =
      [(0, ["QmB"]), (1, ["QmD"]), (2, ["QmA", "QmC"])] ∧
    (((buildDescription shardsEnv (exampleEnv.Get "job-1").1
        [exampleShard "QmA" 2 "r1", exampleShard "QmB" 0 "r2", exampleShard "QmC" 2 "r3",
         exampleShard "QmD" 1 "r4"] [] []).Shards.map
        (fun shard => shard.ShardIndex)).Sorted (fun a b => a < b)) :=
  ⟨by decide,
    (describe_shards shardsEnv (exampleEnv.Get "job-1").1
      [exampleShard "QmA" 2 "r1", exampleShard "QmB" 0 "r2", exampleShard "QmC" 2 "r3",
       exampleShard "QmD" 1 "r4"] [] [] (fun keys => List.reverse_perm keys)).1⟩

end Describe

end Bacalhau
